import Mathlib

/-!
Shallow embedding of `exporters/openvpn_exporter.go` from the
`openvpn_exporter` repository: the status-document parsing and
metric-extraction engine.  Strings are modelled as Lean `String`
(lists of characters), 64-bit floats as `Rat` (every numeric literal
appearing in the claims is exactly representable), metrics streamed to
the Prometheus channel as a list of `Measurement`, and Go's
`error` results as `Option ScanError`.  The Go functions
`collectStatusFromReader`, `collectServerStatusFromReader`,
`collectServerStatusFromReaderV4`, `collectClientStatusFromReader`,
`parseTime`, `contains` and `subslice` are translated one to one;
the separator argument is a `Char` because the Go callers only ever
pass the one-character strings "," and "\t".
-/

/-- Numeric kind of a measurement: `prometheus.CounterValue` or
`prometheus.GaugeValue`. -/
inductive ValueType where
  | counter
  | gauge
deriving DecidableEq, Repr

/-- One typed, labelled measurement sent to the Prometheus channel
(`prometheus.MustNewConstMetric(desc, valueType, value, labels...)`).
The `Desc` is identified by its fully qualified metric name. -/
structure Measurement where
  name : String
  valueType : ValueType
  value : Rat
  labels : List String
deriving DecidableEq, Repr

/-- The error taxonomy of the scanner, modelling the `error` values the
Go code returns (`fmt.Errorf` messages, `strconv.ParseFloat` errors and
`time.Parse` errors). -/
inductive ScanError where
  | unrecognizedFormat (buf : String)
  | unsupportedKey (tag : String)
  | missingHeader (sectionId : String)
  | headerArityMismatch (sectionId : String)
  | invalidNumericValue (s : String)
  | invalidTimestamp (s : String)
deriving DecidableEq, Repr

/-- Association-list lookup, modelling a read from a Go `map` whose
writes are modelled by consing the new binding on the front. -/
def alookup {α β : Type} [DecidableEq α] (k : α) : List (α × β) → Option β
  | [] => none
  | (k2, v) :: rest => if k2 = k then some v else alookup k rest

/-- Split a list of characters on a separator character, modelling
Go `strings.Split` for a one-character separator: `strings.Split("", sep)`
is `[""]` and separators at the ends produce empty fields. -/
def splitOnChar (sep : Char) : List Char → List (List Char)
  | [] => [[]]
  | c :: rest =>
    let r := splitOnChar sep rest
    if c = sep then [] :: r
    else (c :: r.headD []) :: r.tail

/-- `strings.Split(s, sep)` for a one-character separator. -/
def splitOnStr (sep : Char) (s : String) : List String :=
  (splitOnChar sep s.data).map (fun cs => String.mk cs)

/-- Does `s` start with `pre`?  Models Go `strings.HasPrefix` /
`bytes.HasPrefix` on character lists. -/
def listStarts : List Char → List Char → Bool
  | [], _ => true
  | _ :: _, [] => false
  | p :: ps, c :: cs => p = c && listStarts ps cs

/-- `strings.HasPrefix(s, pre)`. -/
def strStarts (pre s : String) : Bool :=
  listStarts pre.data s.data

/-- The Go helper `contains`: does the string slice contain the string. -/
def contains : List String → String → Bool
  | [], _ => false
  | a :: rest, e => if a = e then true else contains rest e

/-- The Go helper `subslice`: false when `sub` is longer than `main`,
otherwise true exactly when every element of `sub` is contained
somewhere in `main`. -/
def subslice (sub main : List String) : Bool :=
  if main.length < sub.length then false
  else sub.all (fun s => contains main s)

/-- Digits of a decimal numeral folded to a natural number. -/
def natOfDigits (cs : List Char) : Nat :=
  cs.foldl (fun n c => 10 * n + (c.toNat - 48)) 0

/-- Nonempty and all decimal digits. -/
def allDigits (cs : List Char) : Bool :=
  !cs.isEmpty && cs.all Char.isDigit

/-- Model of the mantissa part accepted by Go `strconv.ParseFloat`
(decimal forms: digits, `digits.digits`, `.digits`, `digits.`). -/
def parseMantissa (cs : List Char) : Option Rat :=
  let ip := cs.takeWhile (fun c => c != '.')
  match cs.dropWhile (fun c => c != '.') with
  | [] => if allDigits ip then some ((natOfDigits ip : Nat) : Rat) else none
  | _ :: fp =>
    if fp.contains '.' then none
    else if ip.isEmpty && fp.isEmpty then none
    else if ip.all Char.isDigit && fp.all Char.isDigit then
      some (((natOfDigits ip : Nat) : Rat) + ((natOfDigits fp : Nat) : Rat) / ((10 : Rat) ^ fp.length))
    else none

/-- Exponent suffix of a float literal (`e`/`E` already consumed). -/
def parseExpPart (m : Rat) (ecs : List Char) : Option Rat :=
  let signed : Bool × List Char :=
    match ecs with
    | '+' :: r => (true, r)
    | '-' :: r => (false, r)
    | r => (true, r)
  if allDigits signed.2 then
    some (if signed.1 then m * (10 : Rat) ^ natOfDigits signed.2
          else m / (10 : Rat) ^ natOfDigits signed.2)
  else none

/-- Model of Go `strconv.ParseFloat(s, 64)` restricted to finite decimal
forms (optional sign, decimal mantissa, optional decimal exponent); the
hexadecimal, `Inf` and `NaN` forms are not modelled.  Returns the exact
rational value. -/
def parseFloat (s : String) : Option Rat :=
  let signed : Bool × List Char :=
    match s.data with
    | '+' :: r => (false, r)
    | '-' :: r => (true, r)
    | r => (false, r)
  let mant := signed.2.takeWhile (fun c => c != 'e' && c != 'E')
  match parseMantissa mant with
  | none => none
  | some m =>
    let sm := if signed.1 then -m else m
    match signed.2.dropWhile (fun c => c != 'e' && c != 'E') with
    | [] => some sm
    | _ :: ecs => parseExpPart sm ecs

/-- Gregorian leap year. -/
def isLeap (y : Nat) : Bool :=
  (y % 4 = 0 && y % 100 != 0) || y % 400 = 0

/-- Days in a month of the proleptic Gregorian calendar. -/
def daysInMonth (y m : Nat) : Nat :=
  if m = 2 then (if isLeap y then 29 else 28)
  else if m = 4 || m = 6 || m = 9 || m = 11 then 30
  else 31

/-- Days from 1970-01-01 to the civil date `y-m-d` (proleptic
Gregorian, `y ≥ 1`, `1 ≤ m ≤ 12`). -/
def civilToEpochDay (y m d : Nat) : Int :=
  let beforeYear := 365 * (y - 1) + (y - 1) / 4 - (y - 1) / 100 + (y - 1) / 400
  let beforeMonth := ((List.range (m - 1)).map (fun i => daysInMonth y (i + 1))).sum
  ((beforeYear + beforeMonth + (d - 1) : Nat) : Int) - 719162

/-- Seconds from the epoch of `y-m-d h:mi:s` read as an absolute
(UTC-naive) civil time. -/
def civilToEpoch (y m d h mi s : Nat) : Int :=
  civilToEpochDay y m d * 86400 + ((h * 3600 + mi * 60 + s : Nat) : Int)

/-- Clock part `HH:MM:SS` of both Go layouts (`15:04:05`: one or two
hour digits, exactly two minute and second digits), with Go's range
checks. -/
def parseClock (cs : List Char) : Option (Nat × Nat × Nat) :=
  match splitOnChar ':' cs with
  | [h, mi, s] =>
    if allDigits h ∧ (h.length = 1 ∨ h.length = 2) ∧
       allDigits mi ∧ mi.length = 2 ∧ allDigits s ∧ s.length = 2 then
      let hv := natOfDigits h
      let miv := natOfDigits mi
      let sv := natOfDigits s
      if hv ≤ 23 ∧ miv ≤ 59 ∧ sv ≤ 59 then some (hv, miv, sv) else none
    else none
  | _ => none

/-- Leading and trailing whitespace removed, modelling Go
`strings.TrimSpace`. -/
def trimSpace (cs : List Char) : List Char :=
  ((cs.dropWhile Char.isWhitespace).reverse.dropWhile Char.isWhitespace).reverse

/-- The Go helper `parseTime`: `time.Parse("2006-01-02 15:04:05", strings.TrimSpace(timeStr))`
followed by `.Unix()`.  The layout has no zone, so Go reads the civil
time as UTC; the result is epoch seconds. -/
def parseTime (timeStr : String) : Option Int :=
  match splitOnChar ' ' (trimSpace timeStr.data) with
  | [datePart, clockPart] =>
    match splitOnChar '-' datePart with
    | [y, mo, d] =>
      if allDigits y ∧ y.length = 4 ∧ allDigits mo ∧ mo.length = 2 ∧
         allDigits d ∧ d.length = 2 then
        let yv := natOfDigits y
        let mov := natOfDigits mo
        let dv := natOfDigits d
        if 1 ≤ mov ∧ mov ≤ 12 ∧ 1 ≤ dv ∧ dv ≤ daysInMonth yv mov then
          match parseClock clockPart with
          | some (h, mi, s) => some (civilToEpoch yv mov dv h mi s)
          | none => none
        else none
      else none
    | _ => none
  | _ => none

/-- Short month names of the layout `"Mon Jan 2 15:04:05 2006"`. -/
def monthNames : List (String × Nat) :=
  [("Jan", 1), ("Feb", 2), ("Mar", 3), ("Apr", 4), ("May", 5), ("Jun", 6),
   ("Jul", 7), ("Aug", 8), ("Sep", 9), ("Oct", 10), ("Nov", 11), ("Dec", 12)]

/-- Short weekday names; Go checks the weekday field for syntax but
does not compare it against the date. -/
def dayNames : List String :=
  ["Sun", "Mon", "Tue", "Wed", "Thu", "Fri", "Sat"]

/-- Model of `time.ParseInLocation("Mon Jan 2 15:04:05 2006", s, local)`
up to the zone: returns the civil time read as UTC-naive epoch seconds.
The caller subtracts the local zone offset to obtain `.Unix()`. -/
def parseClientTime (s : String) : Option Int :=
  match splitOnChar ' ' s.data with
  | [wd, mon, day, clock, yr] =>
    if dayNames.contains (String.mk wd) then
      match alookup (String.mk mon) monthNames with
      | some mov =>
        if allDigits day ∧ (day.length = 1 ∨ day.length = 2) ∧
           allDigits yr ∧ yr.length = 4 then
          let dv := natOfDigits day
          let yv := natOfDigits yr
          if 1 ≤ dv ∧ dv ≤ daysInMonth yv mov then
            match parseClock clock with
            | some (h, mi, sec) => some (civilToEpoch yv mov dv h mi sec)
            | none => none
          else none
        else none
      | none => none
    else none
  | _ => none

/-- `OpenvpnServerHeaderField`: one declared metric field of a section.
The `prometheus.Desc` is identified by its metric name; the struct is
used as a map key in `recordedMetrics`, so it carries decidable
equality. -/
structure OpenvpnServerHeaderField where
  column : String
  metricName : String
  valueType : ValueType
deriving DecidableEq, Repr

/-- `OpenvpnServerHeader`: the label columns and metric fields of one
registered section. -/
structure OpenvpnServerHeader where
  labelColumns : List String
  metrics : List OpenvpnServerHeaderField
deriving DecidableEq, Repr

/-- `serverHeaderClientLabelColumns` of `NewOpenVPNExporter`, as a
function of the `ignoreIndividuals` flag. -/
def clientLabelColumns (ignoreIndividuals : Bool) : List String :=
  if ignoreIndividuals then ["Common Name"]
  else ["Common Name", "Connected Since", "Real Address", "Virtual Address", "Common Name"]

/-- `serverHeaderRoutingLabelColumns` of `NewOpenVPNExporter`. -/
def routingLabelColumns (ignoreIndividuals : Bool) : List String :=
  if ignoreIndividuals then ["Common Name"]
  else ["Common Name", "Real Address", "Virtual Address"]

/-- The `"Bytes Received"` metric field of the CLIENT_LIST section. -/
def recvField : OpenvpnServerHeaderField :=
  { column := "Bytes Received",
    metricName := "openvpn_server_client_received_bytes_total",
    valueType := .counter }

/-- The `"Bytes Sent"` metric field of the CLIENT_LIST section. -/
def sentField : OpenvpnServerHeaderField :=
  { column := "Bytes Sent",
    metricName := "openvpn_server_client_sent_bytes_total",
    valueType := .counter }

/-- The `"Last Ref (time_t)"` metric field of the ROUTING_TABLE section. -/
def routeField : OpenvpnServerHeaderField :=
  { column := "Last Ref (time_t)",
    metricName := "openvpn_server_route_last_reference_time_seconds",
    valueType := .gauge }

/-- The CLIENT_LIST `OpenvpnServerHeader` of `NewOpenVPNExporter`. -/
def clientListHeader (ignoreIndividuals : Bool) : OpenvpnServerHeader :=
  { labelColumns := clientLabelColumns ignoreIndividuals,
    metrics := [recvField, sentField] }

/-- The ROUTING_TABLE `OpenvpnServerHeader` of `NewOpenVPNExporter`. -/
def routingTableHeader (ignoreIndividuals : Bool) : OpenvpnServerHeader :=
  { labelColumns := routingLabelColumns ignoreIndividuals,
    metrics := [routeField] }

/-- The `openvpnServerHeaders` registry built by `NewOpenVPNExporter`,
as a function of the `ignoreIndividuals` flag. -/
def openvpnServerHeaders (ignoreIndividuals : Bool) : List (String × OpenvpnServerHeader) :=
  [("CLIENT_LIST", clientListHeader ignoreIndividuals),
   ("ROUTING_TABLE", routingTableHeader ignoreIndividuals)]

/-- The `openvpnClientDescs` registry: source key to metric name. -/
def openvpnClientDescs : List (String × String) :=
  [("TUN/TAP read bytes", "openvpn_client_tun_tap_read_bytes_total"),
   ("TUN/TAP write bytes", "openvpn_client_tun_tap_write_bytes_total"),
   ("TCP/UDP read bytes", "openvpn_client_tcp_udp_read_bytes_total"),
   ("TCP/UDP write bytes", "openvpn_client_tcp_udp_write_bytes_total"),
   ("Auth read bytes", "openvpn_client_auth_read_bytes_total"),
   ("pre-compress bytes", "openvpn_client_pre_compress_bytes_total"),
   ("post-compress bytes", "openvpn_client_post_compress_bytes_total"),
   ("pre-decompress bytes", "openvpn_client_pre_decompress_bytes_total"),
   ("post-decompress bytes", "openvpn_client_post_decompress_bytes_total")]

/-- The `openvpn_status_update_time_seconds` gauge for one source. -/
def statusUpdateTimeMetric (statusPath : String) (v : Rat) : Measurement :=
  { name := "openvpn_status_update_time_seconds", valueType := .gauge,
    value := v, labels := [statusPath] }

/-- The `openvpn_server_connected_clients` gauge for one source. -/
def connectedClientsMetric (statusPath : String) (n : Nat) : Measurement :=
  { name := "openvpn_server_connected_clients", valueType := .gauge,
    value := (n : Rat), labels := [statusPath] }

/-- Column map of a v2/v3 data row: every declared label column is
defaulted to the empty string, then the header columns are overlaid
with the row's values (`columnValues[column] = fields[i+1]`).  A read
of this map is `alookup`; later writes shadow earlier ones. -/
def columnValuesV2 (labelColumns columnNames values : List String) :
    List (String × String) :=
  (columnNames.zip values).foldl (fun m cv => (cv.1, cv.2) :: m)
    (labelColumns.foldl (fun m c => (c, "") :: m) [])

/-- Column map of a v4 data row: values are mapped positionally against
the stored header, values beyond the header length are dropped
(`for i, value := range fields { if i < len(headers) { ... } }`). -/
def columnValuesV4 (headers values : List String) : List (String × String) :=
  (headers.zip values).foldl (fun m cv => (cv.1, cv.2) :: m) []

/-- The label tuple of a data row: the status path followed by the
values of the section's label columns (a missing column reads as the
Go map zero value `""`). -/
def rowLabels (statusPath : String) (labelColumns : List String)
    (columnValues : List (String × String)) : List String :=
  statusPath :: labelColumns.map (fun c => (alookup c columnValues).getD "")

/-- The metric-emission loop shared verbatim by
`collectServerStatusFromReader` and `collectServerStatusFromReaderV4`:
for each declared metric field whose column is present in the row, the
dedup check `!subslice(labels, recordedMetrics[metric])` admits or
skips the row; on admission the value is parsed
(`strconv.ParseFloat`, failure aborts), the measurement is emitted and
`labels` is appended to the field's recorded history. -/
def exportMetrics (metrics : List OpenvpnServerHeaderField)
    (columnValues : List (String × String)) (labels : List String)
    (recorded : List (OpenvpnServerHeaderField × List String)) :
    Except ScanError (List (OpenvpnServerHeaderField × List String) × List Measurement) :=
  match metrics with
  | [] => .ok (recorded, [])
  | metric :: rest =>
    match alookup metric.column columnValues with
    | none => exportMetrics rest columnValues labels recorded
    | some columnValue =>
      if subslice labels ((alookup metric recorded).getD []) then
        exportMetrics rest columnValues labels recorded
      else
        match parseFloat columnValue with
        | none => .error (.invalidNumericValue columnValue)
        | some value =>
          match exportMetrics rest columnValues labels
              ((metric, ((alookup metric recorded).getD []) ++ labels) :: recorded) with
          | .error e => .error e
          | .ok (rec2, ms) =>
            .ok (rec2, { name := metric.metricName, valueType := metric.valueType,
                         value := value, labels := labels } :: ms)

/-- Mutable scan state of `collectServerStatusFromReader`. -/
structure ServerScanState where
  headersFound : List (String × List String)
  numberConnectedClient : Nat
  recordedMetrics : List (OpenvpnServerHeaderField × List String)
deriving Repr

/-- Fresh state at scan start. -/
def initServerScanState : ServerScanState :=
  { headersFound := [], numberConnectedClient := 0, recordedMetrics := [] }

/-- One iteration of the `collectServerStatusFromReader` scan loop on
one line, mirroring the Go if/else chain. -/
def collectServerLine (reg : List (String × OpenvpnServerHeader))
    (statusPath : String) (sep : Char) (st : ServerScanState) (line : String) :
    Except ScanError (ServerScanState × List Measurement) :=
  let fields := splitOnStr sep line
  let f0 := fields.headD ""
  if f0 = "END" ∧ fields.length = 1 then .ok (st, [])
  else if f0 = "GLOBAL_STATS" then .ok (st, [])
  else if f0 = "HEADER" ∧ 2 < fields.length then
    .ok ({ st with headersFound := (fields.getD 1 "", fields.drop 2) :: st.headersFound }, [])
  else if f0 = "TIME" ∧ fields.length = 3 then
    match parseFloat (fields.getD 2 "") with
    | none => .error (.invalidNumericValue (fields.getD 2 ""))
    | some t => .ok (st, [statusUpdateTimeMetric statusPath t])
  else if f0 = "TITLE" ∧ fields.length = 2 then .ok (st, [])
  else
    match alookup f0 reg with
    | none => .error (.unsupportedKey f0)
    | some header =>
      let st1 := if f0 = "CLIENT_LIST"
        then { st with numberConnectedClient := st.numberConnectedClient + 1 }
        else st
      match alookup f0 st1.headersFound with
      | none => .error (.missingHeader f0)
      | some columnNames =>
        if fields.length ≠ columnNames.length + 1 then .error (.headerArityMismatch f0)
        else
          let columnValues := columnValuesV2 header.labelColumns columnNames (fields.drop 1)
          let labels := rowLabels statusPath header.labelColumns columnValues
          match exportMetrics header.metrics columnValues labels st1.recordedMetrics with
          | .error e => .error e
          | .ok (rec2, ms) => .ok ({ st1 with recordedMetrics := rec2 }, ms)

/-- The `collectServerStatusFromReader` scan loop over the remaining
lines: measurements stream out as they are emitted; an error aborts
immediately; at end of stream the connected-clients gauge is emitted. -/
def collectServerStatusGo (reg : List (String × OpenvpnServerHeader))
    (statusPath : String) (sep : Char) :
    ServerScanState → List String → List Measurement × Option ScanError
  | st, [] => ([connectedClientsMetric statusPath st.numberConnectedClient], none)
  | st, line :: rest =>
    match collectServerLine reg statusPath sep st line with
    | .error e => ([], some e)
    | .ok (st2, ms) =>
      let r := collectServerStatusGo reg statusPath sep st2 rest
      (ms ++ r.1, r.2)

/-- `collectServerStatusFromReader` (v2 with `sep = ','`, v3 with
`sep = '\t'`) on the lines the `bufio.Scanner` yields. -/
def collectServerStatusFromReader (reg : List (String × OpenvpnServerHeader))
    (statusPath : String) (sep : Char) (lines : List String) :
    List Measurement × Option ScanError :=
  collectServerStatusGo reg statusPath sep initServerScanState lines

/-- Error-free prefix run of the v2/v3 scan loop: the state and the
measurements accumulated after processing the given lines, or the
first error. -/
def serverRun (reg : List (String × OpenvpnServerHeader))
    (statusPath : String) (sep : Char) :
    ServerScanState → List String → Except ScanError (ServerScanState × List Measurement)
  | st, [] => .ok (st, [])
  | st, line :: rest =>
    match collectServerLine reg statusPath sep st line with
    | .error e => .error e
    | .ok (st2, ms) =>
      match serverRun reg statusPath sep st2 rest with
      | .error e => .error e
      | .ok (st3, ms2) => .ok (st3, ms ++ ms2)

/-- Mutable scan state of `collectServerStatusFromReaderV4`. -/
structure V4ScanState where
  currentSection : String
  headersFound : List (String × List String)
  numberConnectedClient : Nat
  recordedMetrics : List (OpenvpnServerHeaderField × List String)
deriving Repr

/-- Fresh v4 state at scan start (`currentSection` is the Go zero
value `""`). -/
def initV4ScanState : V4ScanState :=
  { currentSection := "", headersFound := [], numberConnectedClient := 0,
    recordedMetrics := [] }

/-- One iteration of the `collectServerStatusFromReaderV4` scan loop:
the `Bool` is true when the line was the bare `END` terminator that
breaks the loop. -/
def collectServerLineV4 (reg : List (String × OpenvpnServerHeader))
    (statusPath : String) (st : V4ScanState) (line : String) :
    Except ScanError (V4ScanState × List Measurement × Bool) :=
  if line.data.isEmpty then .ok (st, [], false)
  else if !line.data.contains ',' ∧ line = "OpenVPN CLIENT LIST" then
    .ok ({ st with currentSection := "CLIENT_LIST" }, [], false)
  else if !line.data.contains ',' ∧ line = "ROUTING TABLE" then
    .ok ({ st with currentSection := "ROUTING_TABLE" }, [], false)
  else if !line.data.contains ',' ∧ line = "GLOBAL STATS" then
    .ok ({ st with currentSection := "GLOBAL_STATS" }, [], false)
  else if !line.data.contains ',' ∧ line = "END" then .ok (st, [], true)
  else
    let fields := splitOnStr ',' line
    if st.currentSection = "CLIENT_LIST" then
      if strStarts "Updated," line then
        match parseTime (fields.getD 1 "") with
        | none => .error (.invalidTimestamp (fields.getD 1 ""))
        | some t => .ok (st, [statusUpdateTimeMetric statusPath ((t : Int) : Rat)], false)
      else if strStarts "Common Name," line then
        .ok ({ st with headersFound := ("CLIENT_LIST", fields) :: st.headersFound }, [], false)
      else
        match alookup "CLIENT_LIST" reg with
        | none => .ok (st, [], false)
        | some header =>
          let st1 := { st with numberConnectedClient := st.numberConnectedClient + 1 }
          let headers := (alookup "CLIENT_LIST" st1.headersFound).getD []
          let columnValues := columnValuesV4 headers fields
          let labels := rowLabels statusPath header.labelColumns columnValues
          match exportMetrics header.metrics columnValues labels st1.recordedMetrics with
          | .error e => .error e
          | .ok (rec2, ms) => .ok ({ st1 with recordedMetrics := rec2 }, ms, false)
    else if st.currentSection = "ROUTING_TABLE" then
      if strStarts "Virtual Address," line then
        .ok ({ st with headersFound := ("ROUTING_TABLE", fields) :: st.headersFound }, [], false)
      else
        match alookup "ROUTING_TABLE" reg with
        | none => .ok (st, [], false)
        | some header =>
          let headers := (alookup "ROUTING_TABLE" st.headersFound).getD []
          let columnValues := columnValuesV4 headers fields
          let labels := rowLabels statusPath header.labelColumns columnValues
          match exportMetrics header.metrics columnValues labels st.recordedMetrics with
          | .error e => .error e
          | .ok (rec2, ms) => .ok ({ st with recordedMetrics := rec2 }, ms, false)
    else .ok (st, [], false)

/-- The `collectServerStatusFromReaderV4` scan loop: on `END` the loop
breaks and the connected-clients gauge is emitted, likewise at end of
stream; an error aborts immediately. -/
def collectServerStatusV4Go (reg : List (String × OpenvpnServerHeader))
    (statusPath : String) :
    V4ScanState → List String → List Measurement × Option ScanError
  | st, [] => ([connectedClientsMetric statusPath st.numberConnectedClient], none)
  | st, line :: rest =>
    match collectServerLineV4 reg statusPath st line with
    | .error e => ([], some e)
    | .ok (st2, ms, true) =>
      (ms ++ [connectedClientsMetric statusPath st2.numberConnectedClient], none)
    | .ok (st2, ms, false) =>
      let r := collectServerStatusV4Go reg statusPath st2 rest
      (ms ++ r.1, r.2)

/-- `collectServerStatusFromReaderV4` on the lines the `bufio.Scanner`
yields. -/
def collectServerStatusFromReaderV4 (reg : List (String × OpenvpnServerHeader))
    (statusPath : String) (lines : List String) :
    List Measurement × Option ScanError :=
  collectServerStatusV4Go reg statusPath initV4ScanState lines

/-- One iteration of the `collectClientStatusFromReader` scan loop.
`localOffset` is the offset (in seconds east of UTC) of the process's
local timezone, so `.Unix()` of the locally-interpreted civil time is
the civil epoch minus the offset. -/
def collectClientLine (clientDescs : List (String × String)) (statusPath : String)
    (localOffset : Int) (line : String) : Except ScanError (List Measurement) :=
  let fields := splitOnStr ',' line
  let f0 := fields.headD ""
  if f0 = "END" ∧ fields.length = 1 then .ok []
  else if f0 = "OpenVPN STATISTICS" ∧ fields.length = 1 then .ok []
  else if f0 = "Updated" ∧ fields.length = 2 then
    match parseClientTime (fields.getD 1 "") with
    | none => .error (.invalidTimestamp (fields.getD 1 ""))
    | some t => .ok [statusUpdateTimeMetric statusPath ((t - localOffset : Int) : Rat)]
  else
    match alookup f0 clientDescs with
    | some descName =>
      if fields.length = 2 then
        match parseFloat (fields.getD 1 "") with
        | none => .error (.invalidNumericValue (fields.getD 1 ""))
        | some v =>
          .ok [{ name := descName, valueType := .counter, value := v,
                 labels := [statusPath] }]
      else .error (.unsupportedKey f0)
    | none => .error (.unsupportedKey f0)

/-- The `collectClientStatusFromReader` scan loop (stateless per line). -/
def collectClientStatusGo (clientDescs : List (String × String))
    (statusPath : String) (localOffset : Int) :
    List String → List Measurement × Option ScanError
  | [] => ([], none)
  | line :: rest =>
    match collectClientLine clientDescs statusPath localOffset line with
    | .error e => ([], some e)
    | .ok ms =>
      let r := collectClientStatusGo clientDescs statusPath localOffset rest
      (ms ++ r.1, r.2)

/-- `collectClientStatusFromReader` on the lines the `bufio.Scanner`
yields. -/
def collectClientStatusFromReader (clientDescs : List (String × String))
    (statusPath : String) (localOffset : Int) (lines : List String) :
    List Measurement × Option ScanError :=
  collectClientStatusGo clientDescs statusPath localOffset lines

/-- A single trailing carriage return removed, as `bufio.ScanLines`
does to each line. -/
def dropCR (cs : List Char) : List Char :=
  if cs.getLast? = some '\r' then cs.dropLast else cs

/-- The lines a `bufio.Scanner` with `bufio.ScanLines` yields for the
full stream contents: split on newline, a trailing final newline yields
no extra empty line, each line loses one trailing carriage return. -/
def goLines (content : String) : List String :=
  if content.data.isEmpty then []
  else
    let parts := splitOnChar '\n' content.data
    let parts2 := if content.data.getLast? = some '\n' then parts.dropLast else parts
    parts2.map (fun cs => String.mk (dropCR cs))

/-- `collectStatusFromReader`: peeks at the first 18 bytes of the
stream and dispatches on the literal prefix, in the source's order, to
one of the four dialect collectors; otherwise fails with the
unexpected-file-contents error carrying the peeked prefix. -/
def collectStatusFromReader (ignoreIndividuals : Bool) (statusPath : String)
    (localOffset : Int) (content : String) : List Measurement × Option ScanError :=
  let buf := content.data.take 18
  if listStarts "TITLE,".data buf then
    collectServerStatusFromReader (openvpnServerHeaders ignoreIndividuals)
      statusPath ',' (goLines content)
  else if listStarts "TITLE\t".data buf then
    collectServerStatusFromReader (openvpnServerHeaders ignoreIndividuals)
      statusPath '\t' (goLines content)
  else if listStarts "OpenVPN STATISTICS".data buf then
    collectClientStatusFromReader openvpnClientDescs statusPath localOffset
      (goLines content)
  else if listStarts "OpenVPN CLIENT LIS".data buf then
    collectServerStatusFromReaderV4 (openvpnServerHeaders ignoreIndividuals)
      statusPath (goLines content)
  else ([], some (.unrecognizedFormat (String.mk buf)))

/-- Error-free prefix run of the client scan loop: the measurements
accumulated after processing the given lines, or the first error. -/
def clientRun (clientDescs : List (String × String)) (statusPath : String)
    (localOffset : Int) : List String → Except ScanError (List Measurement)
  | [] => .ok []
  | line :: rest =>
    match collectClientLine clientDescs statusPath localOffset line with
    | .error e => .error e
    | .ok ms =>
      match clientRun clientDescs statusPath localOffset rest with
      | .error e => .error e
      | .ok ms2 => .ok (ms ++ ms2)

/-- Follows the spec's words (§4.5): the candidate tuple occurs as a
contiguous run inside the flattened concatenation of previously
admitted tuples. -/
def contiguousRun (sub main : List String) : Bool :=
  (List.range (main.length + 1)).any
    (fun i => decide ((main.drop i).take sub.length = sub))

/-- Follows the spec's words (§4.2, §8): the number of lines of a
v2/v3 document whose first field is `CLIENT_LIST`. -/
def specClientListRowsV2 (sep : Char) (lines : List String) : Nat :=
  lines.countP (fun l => decide ((splitOnStr sep l).headD "" = "CLIENT_LIST"))

/-- Follows the spec's words (§4.3): the section selected after seeing
one v4 line (the four section-title literals contain no comma, so the
no-separator guard is equivalent to literal equality). -/
def v4NextSection (sec line : String) : String :=
  if line = "OpenVPN CLIENT LIST" then "CLIENT_LIST"
  else if line = "ROUTING TABLE" then "ROUTING_TABLE"
  else if line = "GLOBAL STATS" then "GLOBAL_STATS"
  else sec

/-- Follows the spec's words (§4.3): a v4 line is a CLIENT_LIST data
row when the current section is CLIENT_LIST and the line is not blank,
not a section-title literal, not the `Updated,` timestamp line and not
the `Common Name,` header line. -/
def v4ClientDataRow (sec line : String) : Bool :=
  sec == "CLIENT_LIST" && !line.data.isEmpty
    && line != "OpenVPN CLIENT LIST" && line != "ROUTING TABLE"
    && line != "GLOBAL STATS" && line != "END"
    && !strStarts "Updated," line && !strStarts "Common Name," line

/-- Follows the spec's words (§4.3, §8): the number of CLIENT_LIST
data rows of a v4 document, starting from the given current section
and stopping at the bare `END` terminator. -/
def specClientListRowsV4 : String → List String → Nat
  | _, [] => 0
  | sec, line :: rest =>
    if line = "END" then 0
    else (if v4ClientDataRow sec line then 1 else 0) +
      specClientListRowsV4 (v4NextSection sec line) rest

/-! ### Basic lemmas -/

lemma string_eq_empty_iff (s : String) : s = "" ↔ s.data = [] := by
  cases s with
  | mk d =>
    constructor
    · intro h
      rw [h]
    · intro h
      rw [show ("" : String) = String.mk [] from rfl]
      exact congrArg String.mk h

lemma splitOnStr_empty (sep : Char) : splitOnStr sep "" = [""] := rfl

lemma listStarts_iff (p s : List Char) : listStarts p s = true ↔ ∃ t, s = p ++ t := by
  induction p generalizing s with
  | nil =>
    simp [listStarts]
  | cons c p ih =>
    cases s with
    | nil =>
      simp [listStarts]
    | cons a s2 =>
      simp only [listStarts, Bool.and_eq_true, decide_eq_true_eq, ih, List.cons_append]
      constructor
      · rintro ⟨hc, t, ht⟩
        exact ⟨t, by rw [hc, ht]⟩
      · rintro ⟨t, ht⟩
        obtain ⟨h1, h2⟩ := List.cons.inj ht
        exact ⟨h1.symm, t, h2⟩

lemma contains_iff (l : List String) (e : String) : contains l e = true ↔ e ∈ l := by
  induction l with
  | nil => simp [contains]
  | cons a rest ih =>
    simp only [contains]
    split
    · next h => simp [h.symm]
    · next h =>
      rw [ih]
      constructor
      · intro hm
        exact List.mem_cons_of_mem a hm
      · intro hm
        rcases List.mem_cons.mp hm with h1 | h1
        · exact absurd h1.symm h
        · exact h1

lemma subslice_iff (sub main : List String) :
    subslice sub main = true ↔ (sub.length ≤ main.length ∧ ∀ s ∈ sub, s ∈ main) := by
  unfold subslice
  split
  · next h =>
    simp only [Bool.false_eq_true, false_iff]
    rintro ⟨h1, -⟩
    omega
  · next h =>
    rw [List.all_eq_true]
    simp only [contains_iff]
    constructor
    · intro hm
      exact ⟨by omega, hm⟩
    · rintro ⟨-, hm⟩
      exact hm

lemma rowLabels_length (sp : String) (cols : List String) (cv : List (String × String)) :
    (rowLabels sp cols cv).length = cols.length + 1 := by
  simp [rowLabels]

lemma rowLabels_headD (sp : String) (cols : List String) (cv : List (String × String)) :
    (rowLabels sp cols cv).headD "" = sp := rfl

lemma reg_lookup_cases (ii : Bool) (sect : String) (hdr : OpenvpnServerHeader)
    (h : alookup sect (openvpnServerHeaders ii) = some hdr) :
    (sect = "CLIENT_LIST" ∧ hdr = clientListHeader ii)
    ∨ (sect = "ROUTING_TABLE" ∧ hdr = routingTableHeader ii) := by
  simp only [openvpnServerHeaders, alookup] at h
  split at h
  · next h1 => exact Or.inl ⟨h1.symm, (Option.some.inj h).symm⟩
  · next h1 =>
    split at h
    · next h2 => exact Or.inr ⟨h2.symm, (Option.some.inj h).symm⟩
    · next h2 => exact absurd h (by simp)

lemma reg_field_cases (ii : Bool) (sect : String) (hdr : OpenvpnServerHeader)
    (f : OpenvpnServerHeaderField)
    (h : alookup sect (openvpnServerHeaders ii) = some hdr) (hf : f ∈ hdr.metrics) :
    (hdr.labelColumns = clientLabelColumns ii ∧ (f = recvField ∨ f = sentField))
    ∨ (hdr.labelColumns = routingLabelColumns ii ∧ f = routeField) := by
  rcases reg_lookup_cases ii sect hdr h with ⟨-, rfl⟩ | ⟨-, rfl⟩
  · refine Or.inl ⟨rfl, ?_⟩
    simpa [clientListHeader] using hf
  · refine Or.inr ⟨rfl, ?_⟩
    simpa [routingTableHeader] using hf

/-! ### Lemmas about the metric-emission loop -/

lemma exportMetrics_mem (metrics : List OpenvpnServerHeaderField)
    (cv : List (String × String)) (labels : List String)
    (rec rec2 : List (OpenvpnServerHeaderField × List String)) (ms : List Measurement)
    (h : exportMetrics metrics cv labels rec = .ok (rec2, ms)) :
    ∀ m ∈ ms, ∃ f ∈ metrics,
      m.name = f.metricName ∧ m.valueType = f.valueType ∧ m.labels = labels := by
  induction metrics generalizing rec rec2 ms with
  | nil =>
    simp only [exportMetrics, Except.ok.injEq, Prod.mk.injEq] at h
    rw [← h.2]
    simp
  | cons metric rest ih =>
    rw [exportMetrics] at h
    cases hcol : alookup metric.column cv with
    | none =>
      rw [hcol] at h
      intro m hm
      obtain ⟨f, hf, hrest⟩ := ih rec rec2 ms h m hm
      exact ⟨f, List.mem_cons_of_mem metric hf, hrest⟩
    | some columnValue =>
      rw [hcol] at h
      simp only at h
      split at h
      · intro m hm
        obtain ⟨f, hf, hrest⟩ := ih rec rec2 ms h m hm
        exact ⟨f, List.mem_cons_of_mem metric hf, hrest⟩
      · cases hpf : parseFloat columnValue with
        | none =>
          rw [hpf] at h
          simp at h
        | some value =>
          rw [hpf] at h
          simp only at h
          cases hrec : exportMetrics rest cv labels
              ((metric, ((alookup metric rec).getD []) ++ labels) :: rec) with
          | error e =>
            rw [hrec] at h
            simp at h
          | ok p =>
            obtain ⟨r2, ms2⟩ := p
            rw [hrec] at h
            simp only [Except.ok.injEq, Prod.mk.injEq] at h
            intro m hm
            rw [← h.2] at hm
            rcases List.mem_cons.mp hm with h1 | h1
            · exact ⟨metric, List.mem_cons_self metric rest, by rw [h1]; exact ⟨rfl, rfl, rfl⟩⟩
            · obtain ⟨f, hf, hrest⟩ := ih _ r2 ms2 hrec m h1
              exact ⟨f, List.mem_cons_of_mem metric hf, hrest⟩

lemma exportMetrics_parse_error (metric : OpenvpnServerHeaderField)
    (rest : List OpenvpnServerHeaderField) (cv : List (String × String))
    (labels : List String) (rec : List (OpenvpnServerHeaderField × List String))
    (columnValue : String)
    (hcol : alookup metric.column cv = some columnValue)
    (hdup : subslice labels ((alookup metric rec).getD []) = false)
    (hpf : parseFloat columnValue = none) :
    exportMetrics (metric :: rest) cv labels rec =
      .error (.invalidNumericValue columnValue) := by
  rw [exportMetrics, hcol]
  simp only [hdup, Bool.false_eq_true, if_false, hpf]

lemma exportMetrics_skip (metric : OpenvpnServerHeaderField)
    (rest : List OpenvpnServerHeaderField) (cv : List (String × String))
    (labels : List String) (rec : List (OpenvpnServerHeaderField × List String))
    (hdup : subslice labels ((alookup metric rec).getD []) = true) :
    exportMetrics (metric :: rest) cv labels rec =
      exportMetrics rest cv labels rec := by
  rw [exportMetrics]
  cases hcol : alookup metric.column cv with
  | none => rfl
  | some columnValue => simp only [hdup, if_true]

lemma exportMetrics_accept (metric : OpenvpnServerHeaderField)
    (rest : List OpenvpnServerHeaderField) (cv : List (String × String))
    (labels : List String) (rec : List (OpenvpnServerHeaderField × List String))
    (columnValue : String) (value : Rat)
    (hcol : alookup metric.column cv = some columnValue)
    (hdup : subslice labels ((alookup metric rec).getD []) = false)
    (hpf : parseFloat columnValue = some value) :
    exportMetrics (metric :: rest) cv labels rec =
      (exportMetrics rest cv labels
          ((metric, ((alookup metric rec).getD []) ++ labels) :: rec)).map
        (fun p => (p.1, { name := metric.metricName, valueType := metric.valueType,
                          value := value, labels := labels } :: p.2)) := by
  rw [exportMetrics, hcol]
  simp only [hdup, Bool.false_eq_true, if_false, hpf]
  cases exportMetrics rest cv labels
      ((metric, ((alookup metric rec).getD []) ++ labels) :: rec) with
  | error e => rfl
  | ok p => rfl

/-! ### Case analysis of one v2/v3 scan-loop iteration -/

lemma collectServerLine_ok_cases (reg : List (String × OpenvpnServerHeader))
    (sp : String) (sep : Char) (st st2 : ServerScanState) (line : String)
    (ms : List Measurement)
    (h : collectServerLine reg sp sep st line = .ok (st2, ms)) :
    st2.numberConnectedClient = st.numberConnectedClient +
      (if (splitOnStr sep line).headD "" = "CLIENT_LIST" then 1 else 0)
    ∧ (st2.headersFound = st.headersFound
        ∨ ((splitOnStr sep line).headD "" = "HEADER"
            ∧ st2.headersFound =
                ((splitOnStr sep line).getD 1 "", (splitOnStr sep line).drop 2)
                  :: st.headersFound))
    ∧ (∀ m ∈ ms, (∃ v, m = statusUpdateTimeMetric sp v)
        ∨ ∃ hdr f, alookup ((splitOnStr sep line).headD "") reg = some hdr
            ∧ f ∈ hdr.metrics ∧ m.name = f.metricName ∧ m.valueType = f.valueType
            ∧ m.labels.length = hdr.labelColumns.length + 1
            ∧ m.labels.headD "" = sp) := by
  simp only [collectServerLine] at h
  split at h
  · next hc =>
    simp only [Except.ok.injEq, Prod.mk.injEq] at h
    refine ⟨by rw [← h.1, hc.1]; simp, Or.inl (by rw [← h.1]), ?_⟩
    rw [← h.2]
    simp
  · next hn1 =>
    split at h
    · next hc =>
      simp only [Except.ok.injEq, Prod.mk.injEq] at h
      refine ⟨by rw [← h.1, hc]; simp, Or.inl (by rw [← h.1]), ?_⟩
      rw [← h.2]
      simp
    · next hn2 =>
      split at h
      · next hc =>
        simp only [Except.ok.injEq, Prod.mk.injEq] at h
        refine ⟨by rw [← h.1, hc.1]; simp, Or.inr ⟨hc.1, by rw [← h.1]⟩, ?_⟩
        rw [← h.2]
        simp
      · next hn3 =>
        split at h
        · next hc =>
          split at h
          · simp at h
          · next t heq =>
            simp only [Except.ok.injEq, Prod.mk.injEq] at h
            refine ⟨by rw [← h.1, hc.1]; simp, Or.inl (by rw [← h.1]), ?_⟩
            rw [← h.2]
            intro m hm
            rw [List.mem_singleton.mp hm]
            exact Or.inl ⟨t, rfl⟩
        · next hn4 =>
          split at h
          · next hc =>
            simp only [Except.ok.injEq, Prod.mk.injEq] at h
            refine ⟨by rw [← h.1, hc.1]; simp, Or.inl (by rw [← h.1]), ?_⟩
            rw [← h.2]
            simp
          · next hn5 =>
            split at h
            · simp at h
            · next header hheader =>
              by_cases hcl : (splitOnStr sep line).headD "" = "CLIENT_LIST"
              · simp only [hcl, if_true] at h ⊢
                split at h
                · simp at h
                · next columnNames hcols =>
                  split at h
                  · simp at h
                  · next hlen =>
                    split at h
                    · simp at h
                    · next p rec2 ms0 hexp =>
                      simp only [Except.ok.injEq, Prod.mk.injEq] at h
                      rw [hcl] at hheader
                      refine ⟨by rw [← h.1], Or.inl (by rw [← h.1]), ?_⟩
                      rw [← h.2]
                      intro m hm
                      obtain ⟨f, hf, hname, hvt, hlab⟩ :=
                        exportMetrics_mem _ _ _ _ _ _ hexp m hm
                      refine Or.inr ⟨header, f, hheader, hf, hname, hvt, ?_, ?_⟩
                      · rw [hlab, rowLabels_length]
                      · rw [hlab, rowLabels_headD]
              · simp only [hcl, if_false] at h ⊢
                split at h
                · simp at h
                · next columnNames hcols =>
                  split at h
                  · simp at h
                  · next hlen =>
                    split at h
                    · simp at h
                    · next p rec2 ms0 hexp =>
                      simp only [Except.ok.injEq, Prod.mk.injEq] at h
                      refine ⟨by rw [← h.1]; simp, Or.inl (by rw [← h.1]), ?_⟩
                      rw [← h.2]
                      intro m hm
                      obtain ⟨f, hf, hname, hvt, hlab⟩ :=
                        exportMetrics_mem _ _ _ _ _ _ hexp m hm
                      refine Or.inr ⟨header, f, hheader, hf, hname, hvt, ?_, ?_⟩
                      · rw [hlab, rowLabels_length]
                      · rw [hlab, rowLabels_headD]

/-! ### Scan-level lemmas for the v2/v3 collector -/

lemma collectServerLine_no_gauge (ii : Bool) (sp : String) (sep : Char)
    (st st2 : ServerScanState) (line : String) (ms : List Measurement)
    (h : collectServerLine (openvpnServerHeaders ii) sp sep st line = .ok (st2, ms)) :
    ∀ m ∈ ms, (m.name == "openvpn_server_connected_clients") = false := by
  intro m hm
  rcases (collectServerLine_ok_cases _ _ _ _ _ _ _ h).2.2 m hm with
    ⟨v, rfl⟩ | ⟨hdr, f, hl, hf, hname, -⟩
  · rfl
  · rcases reg_field_cases ii _ _ _ hl hf with ⟨-, hrf | hrf⟩ | ⟨-, hrf⟩ <;>
      rw [hname, hrf] <;> rfl

lemma serverScan_abort (reg : List (String × OpenvpnServerHeader)) (sp : String)
    (sep : Char) (st : ServerScanState) (l1 l2 : List String)
    (h : (collectServerStatusGo reg sp sep st l1).2.isSome = true) :
    collectServerStatusGo reg sp sep st (l1 ++ l2)
      = collectServerStatusGo reg sp sep st l1 := by
  induction l1 generalizing st with
  | nil => simp [collectServerStatusGo] at h
  | cons line rest ih =>
    cases hstep : collectServerLine reg sp sep st line with
    | error e => simp [collectServerStatusGo, hstep]
    | ok p =>
      obtain ⟨st1, ms⟩ := p
      simp only [collectServerStatusGo, hstep] at h
      show collectServerStatusGo reg sp sep st (line :: (rest ++ l2))
          = collectServerStatusGo reg sp sep st (line :: rest)
      simp only [collectServerStatusGo, hstep]
      rw [ih st1 h]

lemma serverRun_append (reg : List (String × OpenvpnServerHeader)) (sp : String)
    (sep : Char) (pre rest : List String) (st st2 : ServerScanState)
    (ms : List Measurement)
    (h : serverRun reg sp sep st pre = .ok (st2, ms)) :
    collectServerStatusGo reg sp sep st (pre ++ rest)
      = (ms ++ (collectServerStatusGo reg sp sep st2 rest).1,
         (collectServerStatusGo reg sp sep st2 rest).2) := by
  induction pre generalizing st ms with
  | nil =>
    simp only [serverRun, Except.ok.injEq, Prod.mk.injEq] at h
    rw [← h.1, ← h.2]
    simp
  | cons line pre ih =>
    cases hstep : collectServerLine reg sp sep st line with
    | error e => simp [serverRun, hstep] at h
    | ok p =>
      obtain ⟨st1, ms1⟩ := p
      simp only [serverRun, hstep] at h
      cases hrun : serverRun reg sp sep st1 pre with
      | error e => rw [hrun] at h; simp at h
      | ok q =>
        obtain ⟨st3, ms2⟩ := q
        rw [hrun] at h
        simp only [Except.ok.injEq, Prod.mk.injEq] at h
        have h2 : serverRun reg sp sep st1 pre = .ok (st2, ms2) := h.1 ▸ hrun
        show collectServerStatusGo reg sp sep st (line :: (pre ++ rest)) = _
        simp only [collectServerStatusGo, hstep]
        rw [ih st1 ms2 h2, ← h.2]
        simp

lemma serverRun_headers_none (reg : List (String × OpenvpnServerHeader)) (sp : String)
    (sep : Char) (pre : List String) (st st2 : ServerScanState)
    (ms : List Measurement) (k : String)
    (h : serverRun reg sp sep st pre = .ok (st2, ms))
    (hk : alookup k st.headersFound = none)
    (hno : ∀ l ∈ pre, ¬ ((splitOnStr sep l).headD "" = "HEADER"
        ∧ (splitOnStr sep l).getD 1 "" = k)) :
    alookup k st2.headersFound = none := by
  induction pre generalizing st ms with
  | nil =>
    simp only [serverRun, Except.ok.injEq, Prod.mk.injEq] at h
    rw [← h.1]
    exact hk
  | cons line pre ih =>
    cases hstep : collectServerLine reg sp sep st line with
    | error e => simp [serverRun, hstep] at h
    | ok p =>
      obtain ⟨st1, ms1⟩ := p
      simp only [serverRun, hstep] at h
      cases hrun : serverRun reg sp sep st1 pre with
      | error e => rw [hrun] at h; simp at h
      | ok q =>
        obtain ⟨st3, ms2⟩ := q
        rw [hrun] at h
        simp only [Except.ok.injEq, Prod.mk.injEq] at h
        have hst1 : alookup k st1.headersFound = none := by
          rcases (collectServerLine_ok_cases _ _ _ _ _ _ _ hstep).2.1 with heq | ⟨hH, heq⟩
          · rw [heq]; exact hk
          · rw [heq, alookup]
            have hkey : (splitOnStr sep line).getD 1 "" ≠ k :=
              fun hcontra => hno line (List.mem_cons_self _ _) ⟨hH, hcontra⟩
            rw [if_neg hkey]
            exact hk
        have h2 : serverRun reg sp sep st1 pre = .ok (st2, ms2) := h.1 ▸ hrun
        exact ih st1 ms2 h2 hst1 (fun l hl => hno l (List.mem_cons_of_mem _ hl))

lemma serverScan_gauge (ii : Bool) (sp : String) (sep : Char) (st : ServerScanState)
    (lines : List String)
    (h : (collectServerStatusGo (openvpnServerHeaders ii) sp sep st lines).2 = none) :
    (collectServerStatusGo (openvpnServerHeaders ii) sp sep st lines).1.filter
        (fun m => m.name == "openvpn_server_connected_clients")
      = [connectedClientsMetric sp
          (st.numberConnectedClient + specClientListRowsV2 sep lines)] := by
  induction lines generalizing st with
  | nil => rfl
  | cons line rest ih =>
    cases hstep : collectServerLine (openvpnServerHeaders ii) sp sep st line with
    | error e => simp [collectServerStatusGo, hstep] at h
    | ok p =>
      obtain ⟨st1, ms⟩ := p
      simp only [collectServerStatusGo, hstep] at h ⊢
      rw [List.filter_append]
      have hms : ms.filter (fun m => m.name == "openvpn_server_connected_clients") = [] :=
        List.filter_eq_nil_iff.mpr
          (fun m hm => by simp [collectServerLine_no_gauge ii sp sep st st1 line ms hstep m hm])
      rw [hms, ih st1 h]
      have hncc := (collectServerLine_ok_cases _ _ _ _ _ _ _ hstep).1
      have harith : st1.numberConnectedClient + specClientListRowsV2 sep rest
          = st.numberConnectedClient + specClientListRowsV2 sep (line :: rest) := by
        rw [hncc]
        simp only [specClientListRowsV2, List.countP_cons, decide_eq_true_eq]
        omega
      rw [harith]
      simp

lemma serverScan_mem (ii : Bool) (sp : String) (sep : Char) (st : ServerScanState)
    (lines : List String) (m : Measurement)
    (hm : m ∈ (collectServerStatusGo (openvpnServerHeaders ii) sp sep st lines).1) :
    (∃ v, m = statusUpdateTimeMetric sp v) ∨ (∃ n, m = connectedClientsMetric sp n)
    ∨ ∃ hdr f sect, alookup sect (openvpnServerHeaders ii) = some hdr ∧ f ∈ hdr.metrics
        ∧ m.name = f.metricName ∧ m.valueType = f.valueType
        ∧ m.labels.length = hdr.labelColumns.length + 1 ∧ m.labels.headD "" = sp := by
  induction lines generalizing st with
  | nil =>
    simp only [collectServerStatusGo, List.mem_singleton] at hm
    exact Or.inr (Or.inl ⟨st.numberConnectedClient, hm⟩)
  | cons line rest ih =>
    cases hstep : collectServerLine (openvpnServerHeaders ii) sp sep st line with
    | error e => simp [collectServerStatusGo, hstep] at hm
    | ok p =>
      obtain ⟨st1, ms⟩ := p
      simp only [collectServerStatusGo, hstep, List.mem_append] at hm
      rcases hm with hm | hm
      · rcases (collectServerLine_ok_cases _ _ _ _ _ _ _ hstep).2.2 m hm with
          ⟨v, hv⟩ | ⟨hdr, f, hl, hf, hrest⟩
        · exact Or.inl ⟨v, hv⟩
        · exact Or.inr (Or.inr ⟨hdr, f, _, hl, hf, hrest⟩)
      · exact ih st1 hm

lemma collectServerLine_missingHeader (ii : Bool) (sp : String) (sep : Char)
    (st : ServerScanState) (line : String)
    (hf0 : (splitOnStr sep line).headD "" = "CLIENT_LIST"
        ∨ (splitOnStr sep line).headD "" = "ROUTING_TABLE")
    (hh : alookup ((splitOnStr sep line).headD "") st.headersFound = none) :
    collectServerLine (openvpnServerHeaders ii) sp sep st line =
      .error (.missingHeader ((splitOnStr sep line).headD "")) := by
  rcases hf0 with hf0 | hf0
  · rw [hf0] at hh
    simp only [collectServerLine, hf0]
    simp [alookup, openvpnServerHeaders, hh]
  · rw [hf0] at hh
    simp only [collectServerLine, hf0]
    simp [alookup, openvpnServerHeaders, hh]

lemma collectServerLine_empty (ii : Bool) (sp : String) (sep : Char)
    (st : ServerScanState) :
    collectServerLine (openvpnServerHeaders ii) sp sep st "" =
      .error (.unsupportedKey "") := by
  have hsplit : splitOnStr sep "" = [""] := rfl
  simp only [collectServerLine, hsplit]
  simp [alookup, openvpnServerHeaders]

lemma serverScan_empty_line_fails (ii : Bool) (sp : String) (sep : Char)
    (st : ServerScanState) (pre post : List String) :
    ((collectServerStatusGo (openvpnServerHeaders ii) sp sep st
        (pre ++ "" :: post)).2).isSome = true := by
  induction pre generalizing st with
  | nil =>
    show ((collectServerStatusGo (openvpnServerHeaders ii) sp sep st ("" :: post)).2).isSome = true
    simp [collectServerStatusGo, collectServerLine_empty ii sp sep st]
  | cons line rest ih =>
    show ((collectServerStatusGo (openvpnServerHeaders ii) sp sep st
        (line :: (rest ++ "" :: post))).2).isSome = true
    cases hstep : collectServerLine (openvpnServerHeaders ii) sp sep st line with
    | error e => simp [collectServerStatusGo, hstep]
    | ok p =>
      obtain ⟨st1, ms⟩ := p
      simp only [collectServerStatusGo, hstep]
      exact ih st1

/-! ### Case analysis of one v4 scan-loop iteration -/

lemma bool_eq_false {b : Bool} (h : ¬ b = true) : b = false := by
  cases b
  · rfl
  · exact absurd rfl h

lemma not_lit_of_not_cond (line lit : String)
    (hno : ¬ ((!line.data.contains ',') = true ∧ line = lit))
    (hc : (!lit.data.contains ',') = true) : line ≠ lit :=
  fun he => hno ⟨by rw [he]; exact hc, he⟩

lemma v4NextSection_of_not_lit (sec line : String)
    (hl1 : line ≠ "OpenVPN CLIENT LIST") (hl2 : line ≠ "ROUTING TABLE")
    (hl3 : line ≠ "GLOBAL STATS") : v4NextSection sec line = sec := by
  simp [v4NextSection, hl1, hl2, hl3]

lemma collectServerLineV4_ok_cases (ii : Bool) (sp : String) (st st2 : V4ScanState)
    (line : String) (ms : List Measurement) (brk : Bool)
    (h : collectServerLineV4 (openvpnServerHeaders ii) sp st line = .ok (st2, ms, brk)) :
    st2.numberConnectedClient = st.numberConnectedClient +
      (if v4ClientDataRow st.currentSection line = true then 1 else 0)
    ∧ st2.currentSection = v4NextSection st.currentSection line
    ∧ (brk = true ↔ line = "END")
    ∧ (∀ m ∈ ms, (∃ v, m = statusUpdateTimeMetric sp v)
        ∨ ∃ hdr f sect, alookup sect (openvpnServerHeaders ii) = some hdr
            ∧ f ∈ hdr.metrics ∧ m.name = f.metricName ∧ m.valueType = f.valueType
            ∧ m.labels.length = hdr.labelColumns.length + 1
            ∧ m.labels.headD "" = sp) := by
  simp only [collectServerLineV4] at h
  split at h
  · next hc =>
    have hline : line = "" := (string_eq_empty_iff line).mpr (List.isEmpty_iff.mp hc)
    subst hline
    simp only [Except.ok.injEq, Prod.mk.injEq] at h
    obtain ⟨h1, h2, h3⟩ := h
    refine ⟨by rw [← h1]; simp [v4ClientDataRow], by rw [← h1]; simp [v4NextSection],
      by rw [← h3]; simp, by rw [← h2]; simp⟩
  · next hne =>
    split at h
    · next hc =>
      obtain ⟨-, hline⟩ := hc
      subst hline
      simp only [Except.ok.injEq, Prod.mk.injEq] at h
      obtain ⟨h1, h2, h3⟩ := h
      refine ⟨by rw [← h1]; simp [v4ClientDataRow], by rw [← h1]; simp [v4NextSection],
        by rw [← h3]; simp, by rw [← h2]; simp⟩
    · next hn1 =>
      split at h
      · next hc =>
        obtain ⟨-, hline⟩ := hc
        subst hline
        simp only [Except.ok.injEq, Prod.mk.injEq] at h
        obtain ⟨h1, h2, h3⟩ := h
        refine ⟨by rw [← h1]; simp [v4ClientDataRow], by rw [← h1]; simp [v4NextSection],
          by rw [← h3]; simp, by rw [← h2]; simp⟩
      · next hn2 =>
        split at h
        · next hc =>
          obtain ⟨-, hline⟩ := hc
          subst hline
          simp only [Except.ok.injEq, Prod.mk.injEq] at h
          obtain ⟨h1, h2, h3⟩ := h
          refine ⟨by rw [← h1]; simp [v4ClientDataRow], by rw [← h1]; simp [v4NextSection],
            by rw [← h3]; simp, by rw [← h2]; simp⟩
        · next hn3 =>
          split at h
          · next hc =>
            obtain ⟨-, hline⟩ := hc
            subst hline
            simp only [Except.ok.injEq, Prod.mk.injEq] at h
            obtain ⟨h1, h2, h3⟩ := h
            refine ⟨by rw [← h1]; simp [v4ClientDataRow], by rw [← h1]; simp [v4NextSection],
              by rw [← h3]; simp, by rw [← h2]; simp⟩
          · next hn4 =>
            have hl1 : line ≠ "OpenVPN CLIENT LIST" :=
              not_lit_of_not_cond _ _ hn1 (by decide)
            have hl2 : line ≠ "ROUTING TABLE" :=
              not_lit_of_not_cond _ _ hn2 (by decide)
            have hl3 : line ≠ "GLOBAL STATS" :=
              not_lit_of_not_cond _ _ hn3 (by decide)
            have hl4 : line ≠ "END" :=
              not_lit_of_not_cond _ _ hn4 (by decide)
            have hnext : v4NextSection st.currentSection line = st.currentSection :=
              v4NextSection_of_not_lit _ _ hl1 hl2 hl3
            split at h
            · next hsec =>
              split at h
              · next hup =>
                split at h
                · simp at h
                · next t heq =>
                  simp only [Except.ok.injEq, Prod.mk.injEq] at h
                  obtain ⟨h1, h2, h3⟩ := h
                  refine ⟨?_, ?_, ?_, ?_⟩
                  · rw [← h1]
                    simp [v4ClientDataRow, hup]
                  · rw [← h1, hnext]
                  · rw [← h3]
                    simp [hl4]
                  · rw [← h2]
                    intro m hm
                    rw [List.mem_singleton.mp hm]
                    exact Or.inl ⟨((t : Int) : Rat), rfl⟩
              · next hup =>
                split at h
                · next hcn =>
                  simp only [Except.ok.injEq, Prod.mk.injEq] at h
                  obtain ⟨h1, h2, h3⟩ := h
                  refine ⟨?_, ?_, ?_, ?_⟩
                  · rw [← h1]
                    simp [v4ClientDataRow, hcn]
                  · rw [← h1, hnext]
                  · rw [← h3]
                    simp [hl4]
                  · rw [← h2]
                    simp
                · next hcn =>
                  split at h
                  · next hnone =>
                    exact absurd hnone (by simp [openvpnServerHeaders, alookup])
                  · next header hreg =>
                    split at h
                    · simp at h
                    · next p rec2 ms0 hexp =>
                      simp only [Except.ok.injEq, Prod.mk.injEq] at h
                      obtain ⟨h1, h2, h3⟩ := h
                      have hrow : v4ClientDataRow st.currentSection line = true := by
                        simp [v4ClientDataRow, hsec, hl1, hl2, hl3, hl4,
                          bool_eq_false hne, bool_eq_false hup, bool_eq_false hcn]
                      refine ⟨?_, ?_, ?_, ?_⟩
                      · rw [← h1, hrow]
                        simp
                      · rw [← h1, hnext]
                      · rw [← h3]
                        simp [hl4]
                      · rw [← h2]
                        intro m hm
                        obtain ⟨f, hf, hname, hvt, hlab⟩ :=
                          exportMetrics_mem _ _ _ _ _ _ hexp m hm
                        refine Or.inr ⟨header, f, "CLIENT_LIST", hreg, hf, hname, hvt, ?_, ?_⟩
                        · rw [hlab, rowLabels_length]
                        · rw [hlab, rowLabels_headD]
            · next hsec =>
              split at h
              · next hsec2 =>
                have hnotcl : (st.currentSection == "CLIENT_LIST") = false :=
                  beq_eq_false_iff_ne.mpr hsec
                split at h
                · next hva =>
                  simp only [Except.ok.injEq, Prod.mk.injEq] at h
                  obtain ⟨h1, h2, h3⟩ := h
                  refine ⟨?_, ?_, ?_, ?_⟩
                  · rw [← h1]
                    simp [v4ClientDataRow, hnotcl]
                  · rw [← h1, hnext]
                  · rw [← h3]
                    simp [hl4]
                  · rw [← h2]
                    simp
                · next hva =>
                  split at h
                  · next hnone =>
                    exact absurd hnone (by simp [openvpnServerHeaders, alookup])
                  · next header hreg =>
                    split at h
                    · simp at h
                    · next p rec2 ms0 hexp =>
                      simp only [Except.ok.injEq, Prod.mk.injEq] at h
                      obtain ⟨h1, h2, h3⟩ := h
                      refine ⟨?_, ?_, ?_, ?_⟩
                      · rw [← h1]
                        simp [v4ClientDataRow, hnotcl]
                      · rw [← h1, hnext]
                      · rw [← h3]
                        simp [hl4]
                      · rw [← h2]
                        intro m hm
                        obtain ⟨f, hf, hname, hvt, hlab⟩ :=
                          exportMetrics_mem _ _ _ _ _ _ hexp m hm
                        refine Or.inr ⟨header, f, "ROUTING_TABLE", hreg, hf, hname, hvt, ?_, ?_⟩
                        · rw [hlab, rowLabels_length]
                        · rw [hlab, rowLabels_headD]
              · next hsec2 =>
                have hnotcl : (st.currentSection == "CLIENT_LIST") = false :=
                  beq_eq_false_iff_ne.mpr hsec
                simp only [Except.ok.injEq, Prod.mk.injEq] at h
                obtain ⟨h1, h2, h3⟩ := h
                refine ⟨?_, ?_, ?_, ?_⟩
                · rw [← h1]
                  simp [v4ClientDataRow, hnotcl]
                · rw [← h1, hnext]
                · rw [← h3]
                  simp [hl4]
                · rw [← h2]
                  simp

/-! ### Scan-level lemmas for the v4 collector -/

lemma collectServerLineV4_no_gauge (ii : Bool) (sp : String) (st st2 : V4ScanState)
    (line : String) (ms : List Measurement) (brk : Bool)
    (h : collectServerLineV4 (openvpnServerHeaders ii) sp st line = .ok (st2, ms, brk)) :
    ∀ m ∈ ms, (m.name == "openvpn_server_connected_clients") = false := by
  intro m hm
  rcases (collectServerLineV4_ok_cases ii sp st st2 line ms brk h).2.2.2 m hm with
    ⟨v, rfl⟩ | ⟨hdr, f, sect, hl, hf, hname, -⟩
  · rfl
  · rcases reg_field_cases ii _ _ _ hl hf with ⟨-, hrf | hrf⟩ | ⟨-, hrf⟩ <;>
      rw [hname, hrf] <;> rfl

lemma v4Scan_abort (reg : List (String × OpenvpnServerHeader)) (sp : String)
    (st : V4ScanState) (l1 l2 : List String)
    (h : (collectServerStatusV4Go reg sp st l1).2.isSome = true) :
    collectServerStatusV4Go reg sp st (l1 ++ l2)
      = collectServerStatusV4Go reg sp st l1 := by
  induction l1 generalizing st with
  | nil => simp [collectServerStatusV4Go] at h
  | cons line rest ih =>
    cases hstep : collectServerLineV4 reg sp st line with
    | error e => simp [collectServerStatusV4Go, hstep]
    | ok p =>
      obtain ⟨st1, ms, brk⟩ := p
      cases brk with
      | true => simp [collectServerStatusV4Go, hstep] at h
      | false =>
        simp only [collectServerStatusV4Go, hstep] at h
        show collectServerStatusV4Go reg sp st (line :: (rest ++ l2))
            = collectServerStatusV4Go reg sp st (line :: rest)
        simp only [collectServerStatusV4Go, hstep]
        rw [ih st1 h]

lemma v4Scan_gauge (ii : Bool) (sp : String) (st : V4ScanState) (lines : List String)
    (h : (collectServerStatusV4Go (openvpnServerHeaders ii) sp st lines).2 = none) :
    (collectServerStatusV4Go (openvpnServerHeaders ii) sp st lines).1.filter
        (fun m => m.name == "openvpn_server_connected_clients")
      = [connectedClientsMetric sp
          (st.numberConnectedClient + specClientListRowsV4 st.currentSection lines)] := by
  induction lines generalizing st with
  | nil => rfl
  | cons line rest ih =>
    cases hstep : collectServerLineV4 (openvpnServerHeaders ii) sp st line with
    | error e => simp [collectServerStatusV4Go, hstep] at h
    | ok p =>
      obtain ⟨st1, ms, brk⟩ := p
      have hcase := collectServerLineV4_ok_cases ii sp st st1 line ms brk hstep
      have hms : ms.filter (fun m => m.name == "openvpn_server_connected_clients") = [] :=
        List.filter_eq_nil_iff.mpr
          (fun m hm => by
            simp [collectServerLineV4_no_gauge ii sp st st1 line ms brk hstep m hm])
      cases brk with
      | true =>
        have hend : line = "END" := hcase.2.2.1.mp rfl
        subst hend
        simp only [collectServerStatusV4Go, hstep]
        rw [List.filter_append, hms]
        have hncc : st1.numberConnectedClient = st.numberConnectedClient := by
          rw [hcase.1]
          simp [v4ClientDataRow]
        rw [hncc]
        simp [specClientListRowsV4, connectedClientsMetric]
      | false =>
        have hnend : line ≠ "END" := fun he => by
          have := hcase.2.2.1.mpr he
          simp at this
        simp only [collectServerStatusV4Go, hstep] at h ⊢
        rw [List.filter_append, hms, ih st1 h]
        have harith : st1.numberConnectedClient + specClientListRowsV4 st1.currentSection rest
            = st.numberConnectedClient + specClientListRowsV4 st.currentSection (line :: rest) := by
          rw [hcase.1, hcase.2.1]
          simp only [specClientListRowsV4, if_neg hnend]
          omega
        rw [harith]
        simp

lemma v4Scan_mem (ii : Bool) (sp : String) (st : V4ScanState)
    (lines : List String) (m : Measurement)
    (hm : m ∈ (collectServerStatusV4Go (openvpnServerHeaders ii) sp st lines).1) :
    (∃ v, m = statusUpdateTimeMetric sp v) ∨ (∃ n, m = connectedClientsMetric sp n)
    ∨ ∃ hdr f sect, alookup sect (openvpnServerHeaders ii) = some hdr ∧ f ∈ hdr.metrics
        ∧ m.name = f.metricName ∧ m.valueType = f.valueType
        ∧ m.labels.length = hdr.labelColumns.length + 1 ∧ m.labels.headD "" = sp := by
  induction lines generalizing st with
  | nil =>
    simp only [collectServerStatusV4Go, List.mem_singleton] at hm
    exact Or.inr (Or.inl ⟨st.numberConnectedClient, hm⟩)
  | cons line rest ih =>
    cases hstep : collectServerLineV4 (openvpnServerHeaders ii) sp st line with
    | error e => simp [collectServerStatusV4Go, hstep] at hm
    | ok p =>
      obtain ⟨st1, ms, brk⟩ := p
      have hcase := collectServerLineV4_ok_cases ii sp st st1 line ms brk hstep
      cases brk with
      | true =>
        simp only [collectServerStatusV4Go, hstep, List.mem_append,
          List.mem_singleton] at hm
        rcases hm with hm | hm
        · rcases hcase.2.2.2 m hm with ⟨v, hv⟩ | ⟨hdr, f, sect, hrest⟩
          · exact Or.inl ⟨v, hv⟩
          · exact Or.inr (Or.inr ⟨hdr, f, sect, hrest⟩)
        · exact Or.inr (Or.inl ⟨st1.numberConnectedClient, hm⟩)
      | false =>
        simp only [collectServerStatusV4Go, hstep, List.mem_append] at hm
        rcases hm with hm | hm
        · rcases hcase.2.2.2 m hm with ⟨v, hv⟩ | ⟨hdr, f, sect, hrest⟩
          · exact Or.inl ⟨v, hv⟩
          · exact Or.inr (Or.inr ⟨hdr, f, sect, hrest⟩)
        · exact ih st1 hm

/-! ### Header-less v4 data rows, client-scan lemmas -/

lemma collectServerLineV4_client_no_header (ii : Bool) (sp : String) (st : V4ScanState)
    (line : String)
    (hsec : st.currentSection = "CLIENT_LIST")
    (hne : line ≠ "")
    (hl1 : line ≠ "OpenVPN CLIENT LIST") (hl2 : line ≠ "ROUTING TABLE")
    (hl3 : line ≠ "GLOBAL STATS") (hl4 : line ≠ "END")
    (hup : strStarts "Updated," line = false)
    (hcn : strStarts "Common Name," line = false)
    (hh : alookup "CLIENT_LIST" st.headersFound = none) :
    collectServerLineV4 (openvpnServerHeaders ii) sp st line =
      .ok ({ st with numberConnectedClient := st.numberConnectedClient + 1 }, [], false) := by
  have hemp : line.data.isEmpty = false := by
    cases hb : line.data.isEmpty
    · rfl
    · exact absurd ((string_eq_empty_iff line).mpr (List.isEmpty_iff.mp hb)) hne
  simp [collectServerLineV4, hemp, hl1, hl2, hl3, hl4, hsec, hup, hcn, hh,
    openvpnServerHeaders, alookup, clientListHeader, columnValuesV4, exportMetrics,
    recvField, sentField]

lemma collectServerLineV4_routing_no_header (ii : Bool) (sp : String) (st : V4ScanState)
    (line : String)
    (hsec : st.currentSection = "ROUTING_TABLE")
    (hne : line ≠ "")
    (hl1 : line ≠ "OpenVPN CLIENT LIST") (hl2 : line ≠ "ROUTING TABLE")
    (hl3 : line ≠ "GLOBAL STATS") (hl4 : line ≠ "END")
    (hva : strStarts "Virtual Address," line = false)
    (hh : alookup "ROUTING_TABLE" st.headersFound = none) :
    collectServerLineV4 (openvpnServerHeaders ii) sp st line = .ok (st, [], false) := by
  have hemp : line.data.isEmpty = false := by
    cases hb : line.data.isEmpty
    · rfl
    · exact absurd ((string_eq_empty_iff line).mpr (List.isEmpty_iff.mp hb)) hne
  simp [collectServerLineV4, hemp, hl1, hl2, hl3, hl4, hsec, hva, hh,
    openvpnServerHeaders, alookup, routingTableHeader, columnValuesV4, exportMetrics,
    routeField]
  rw [← hsec]

lemma collectServerLineV4_empty (reg : List (String × OpenvpnServerHeader))
    (sp : String) (st : V4ScanState) :
    collectServerLineV4 reg sp st "" = .ok (st, [], false) := by
  simp [collectServerLineV4]

lemma clientScan_abort (descs : List (String × String)) (sp : String) (off : Int)
    (l1 l2 : List String)
    (h : (collectClientStatusGo descs sp off l1).2.isSome = true) :
    collectClientStatusGo descs sp off (l1 ++ l2)
      = collectClientStatusGo descs sp off l1 := by
  induction l1 with
  | nil => simp [collectClientStatusGo] at h
  | cons line rest ih =>
    cases hstep : collectClientLine descs sp off line with
    | error e => simp [collectClientStatusGo, hstep]
    | ok ms =>
      simp only [collectClientStatusGo, hstep] at h
      show collectClientStatusGo descs sp off (line :: (rest ++ l2))
          = collectClientStatusGo descs sp off (line :: rest)
      simp only [collectClientStatusGo, hstep]
      rw [ih h]

lemma clientRun_append (descs : List (String × String)) (sp : String) (off : Int)
    (pre rest : List String) (ms : List Measurement)
    (h : clientRun descs sp off pre = .ok ms) :
    collectClientStatusGo descs sp off (pre ++ rest)
      = (ms ++ (collectClientStatusGo descs sp off rest).1,
         (collectClientStatusGo descs sp off rest).2) := by
  induction pre generalizing ms with
  | nil =>
    simp only [clientRun, Except.ok.injEq] at h
    rw [← h]
    simp
  | cons line pre ih =>
    cases hstep : collectClientLine descs sp off line with
    | error e => simp [clientRun, hstep] at h
    | ok ms1 =>
      simp only [clientRun, hstep] at h
      cases hrun : clientRun descs sp off pre with
      | error e => rw [hrun] at h; simp at h
      | ok ms2 =>
        rw [hrun] at h
        simp only [Except.ok.injEq] at h
        show collectClientStatusGo descs sp off (line :: (pre ++ rest)) = _
        simp only [collectClientStatusGo, hstep]
        rw [ih ms2 hrun, ← h]
        simp

/-! ### Prefix-dispatch helpers -/

lemma listStarts_of_starts_le : ∀ (p q s : List Char), p.length ≤ q.length →
    listStarts p s = true → listStarts q s = true → listStarts p q = true
  | [], _, _, _, _, _ => rfl
  | a :: p, [], s, hle, _, _ => by simp at hle
  | a :: p, b :: q, s, hle, hp, hq => by
    cases s with
    | nil => simp [listStarts] at hp
    | cons c s2 =>
      simp only [listStarts, Bool.and_eq_true, decide_eq_true_eq] at hp hq ⊢
      obtain ⟨hac, hp2⟩ := hp
      obtain ⟨hbc, hq2⟩ := hq
      exact ⟨hac.trans hbc.symm,
        listStarts_of_starts_le p q s2 (by simpa using hle) hp2 hq2⟩

lemma listStarts_false_of (p q s : List Char) (hq : listStarts q s = true)
    (hle : p.length ≤ q.length) (hpq : listStarts p q = false) :
    listStarts p s = false := by
  cases hb : listStarts p s
  · rfl
  · rw [listStarts_of_starts_le p q s hle hb hq] at hpq
    exact absurd hpq (by simp)

lemma v4Scan_skip_empty (reg : List (String × OpenvpnServerHeader)) (sp : String)
    (st : V4ScanState) (pre post : List String) :
    collectServerStatusV4Go reg sp st (pre ++ "" :: post)
      = collectServerStatusV4Go reg sp st (pre ++ post) := by
  induction pre generalizing st with
  | nil =>
    show collectServerStatusV4Go reg sp st ("" :: post)
        = collectServerStatusV4Go reg sp st post
    simp [collectServerStatusV4Go, collectServerLineV4_empty]
  | cons line rest ih =>
    show collectServerStatusV4Go reg sp st (line :: (rest ++ "" :: post))
        = collectServerStatusV4Go reg sp st (line :: (rest ++ post))
    cases hstep : collectServerLineV4 reg sp st line with
    | error e => simp [collectServerStatusV4Go, hstep]
    | ok p =>
      obtain ⟨st1, ms, brk⟩ := p
      cases brk with
      | true => simp [collectServerStatusV4Go, hstep]
      | false =>
        simp only [collectServerStatusV4Go, hstep]
        rw [ih st1]

/-! ### The claims -/

/-- Claim C1, corrected.  The spec claims a malformed numeric (or
timestamp) field makes the whole scan fail with a single error *and
produces no measurements at all*.  The single-error immediate-abort
part holds for all three collectors: once the streamed scan has
errored, appending further lines changes nothing (no partial-document
salvage, no connected-clients gauge after an error), and a failed
numeric parse of an admitted metric field is such an error.  But
measurements emitted from lines before the failing one are still
produced, so "no measurements at all" is false (see the
counterexample). -/
theorem claimC1_scan_aborts_at_first_error :
    (∀ reg sp sep st l1 l2,
      (collectServerStatusGo reg sp sep st l1).2.isSome = true →
      collectServerStatusGo reg sp sep st (l1 ++ l2)
        = collectServerStatusGo reg sp sep st l1)
    ∧ (∀ reg sp st l1 l2,
      (collectServerStatusV4Go reg sp st l1).2.isSome = true →
      collectServerStatusV4Go reg sp st (l1 ++ l2)
        = collectServerStatusV4Go reg sp st l1)
    ∧ (∀ descs sp off l1 l2,
      (collectClientStatusGo descs sp off l1).2.isSome = true →
      collectClientStatusGo descs sp off (l1 ++ l2)
        = collectClientStatusGo descs sp off l1)
    ∧ (∀ metric rest cv labels rec columnValue,
      alookup metric.column cv = some columnValue →
      subslice labels ((alookup metric rec).getD []) = false →
      parseFloat columnValue = none →
      exportMetrics (metric :: rest) cv labels rec
        = .error (.invalidNumericValue columnValue)) :=
  ⟨serverScan_abort, v4Scan_abort, clientScan_abort,
   fun metric rest cv labels rec columnValue h1 h2 h3 =>
     exportMetrics_parse_error metric rest cv labels rec columnValue h1 h2 h3⟩

/-- Claim C1's counterexample: in a v2 document whose last line has
the malformed field value `"abc"`, the scan fails with the
invalid-numeric-value error, yet the status-update-time gauge emitted
from the earlier `TIME` line was already produced — the claimed "no
measurements at all are produced" is false. -/
theorem claimC1_counterexample :
    collectServerStatusFromReader (openvpnServerHeaders true) "/status" ','
        ["TITLE,OpenVPN", "TIME,x,100",
         "HEADER,CLIENT_LIST,Common Name,Bytes Received,Bytes Sent",
         "CLIENT_LIST,alice,abc,200"]
      = ([statusUpdateTimeMetric "/status" 100], some (.invalidNumericValue "abc"))
    ∧ [statusUpdateTimeMetric "/status" 100] ≠ ([] : List Measurement) := by
  constructor
  · decide
  · decide

/-- Claim C2, corrected.  The dedup check `subslice` is not a
contiguous-run test: it rejects a candidate exactly when the candidate
is no longer than the flattened history and every element of the
candidate occurs somewhere in the flattened history (element-wise
membership); on acceptance the tuple is appended to the tracked
history and the measurement is emitted. -/
theorem claimC2_dedup_is_elementwise_membership :
    (∀ sub main, subslice sub main = true ↔
      (sub.length ≤ main.length ∧ ∀ s ∈ sub, s ∈ main))
    ∧ (∀ metric cv labels rec,
      (subslice labels ((alookup metric rec).getD []) = true →
        exportMetrics [metric] cv labels rec = .ok (rec, []))
      ∧ (∀ columnValue value,
        alookup metric.column cv = some columnValue →
        subslice labels ((alookup metric rec).getD []) = false →
        parseFloat columnValue = some value →
        exportMetrics [metric] cv labels rec
          = .ok ((metric, ((alookup metric rec).getD []) ++ labels) :: rec,
                 [{ name := metric.metricName, valueType := metric.valueType,
                    value := value, labels := labels }]))) := by
  refine ⟨subslice_iff, fun metric cv labels rec => ⟨?_, ?_⟩⟩
  · intro hdup
    rw [exportMetrics_skip metric [] cv labels rec hdup]
    rfl
  · intro columnValue value h1 h2 h3
    rw [exportMetrics_accept metric [] cv labels rec columnValue value h1 h2 h3]
    rfl

/-- Claim C2's counterexample: the tuple `["a", "b"]` is rejected by
`subslice` against the flattened history `["b", "x", "a"]` although it
does not occur there as a contiguous run. -/
theorem claimC2_counterexample :
    subslice ["a", "b"] ["b", "x", "a"] = true
    ∧ contiguousRun ["a", "b"] ["b", "x", "a"] = false := by
  constructor
  · decide
  · decide

/-- Claim C3: for every server document whose scan succeeds, the
connected-clients gauge is emitted exactly once (the filter of the
output on its metric name is a singleton) with value the number of
CLIENT_LIST data rows — for v2/v3 the lines whose first field is
`CLIENT_LIST`, for v4 the CLIENT_LIST-section data rows — including
value 0 for documents with no such rows. -/
theorem claimC3_connected_clients_gauge :
    (∀ ii sp sep lines,
      (collectServerStatusFromReader (openvpnServerHeaders ii) sp sep lines).2 = none →
      (collectServerStatusFromReader (openvpnServerHeaders ii) sp sep lines).1.filter
          (fun m => m.name == "openvpn_server_connected_clients")
        = [connectedClientsMetric sp (specClientListRowsV2 sep lines)])
    ∧ (∀ ii sp lines,
      (collectServerStatusFromReaderV4 (openvpnServerHeaders ii) sp lines).2 = none →
      (collectServerStatusFromReaderV4 (openvpnServerHeaders ii) sp lines).1.filter
          (fun m => m.name == "openvpn_server_connected_clients")
        = [connectedClientsMetric sp (specClientListRowsV4 "" lines)])
    ∧ (collectServerStatusFromReader (openvpnServerHeaders true) "/status" ','
          ["TITLE,OpenVPN"]
        = ([connectedClientsMetric "/status" 0], none)
      ∧ collectServerStatusFromReaderV4 (openvpnServerHeaders true) "/status"
          ["OpenVPN CLIENT LIST", "END"]
        = ([connectedClientsMetric "/status" 0], none)) := by
  refine ⟨?_, ?_, by decide, by decide⟩
  · intro ii sp sep lines h
    simpa [collectServerStatusFromReader, initServerScanState] using
      serverScan_gauge ii sp sep initServerScanState lines h
  · intro ii sp lines h
    simpa [collectServerStatusFromReaderV4, initV4ScanState] using
      v4Scan_gauge ii sp initV4ScanState lines h

/-- Claim C4: the format detector inspects only the first 18 bytes and
dispatches by exact literal prefix — `TITLE,` to the v2 comma parser,
`TITLE\t` to the v3 tab parser, `OpenVPN STATISTICS` to the client
parser, `OpenVPN CLIENT LIS` to the v4 parser — and any other prefix
fails with the unrecognized-format error carrying the offending
prefix. -/
theorem claimC4_format_dispatch (ii : Bool) (sp : String) (off : Int) (content : String) :
    (listStarts "TITLE,".data (content.data.take 18) = true →
      collectStatusFromReader ii sp off content
        = collectServerStatusFromReader (openvpnServerHeaders ii) sp ',' (goLines content))
    ∧ (listStarts "TITLE\t".data (content.data.take 18) = true →
      collectStatusFromReader ii sp off content
        = collectServerStatusFromReader (openvpnServerHeaders ii) sp '\t' (goLines content))
    ∧ (listStarts "OpenVPN STATISTICS".data (content.data.take 18) = true →
      collectStatusFromReader ii sp off content
        = collectClientStatusFromReader openvpnClientDescs sp off (goLines content))
    ∧ (listStarts "OpenVPN CLIENT LIS".data (content.data.take 18) = true →
      collectStatusFromReader ii sp off content
        = collectServerStatusFromReaderV4 (openvpnServerHeaders ii) sp (goLines content))
    ∧ (listStarts "TITLE,".data (content.data.take 18) = false →
      listStarts "TITLE\t".data (content.data.take 18) = false →
      listStarts "OpenVPN STATISTICS".data (content.data.take 18) = false →
      listStarts "OpenVPN CLIENT LIS".data (content.data.take 18) = false →
      collectStatusFromReader ii sp off content
        = ([], some (.unrecognizedFormat (String.mk (content.data.take 18))))) := by
  refine ⟨?_, ?_, ?_, ?_, ?_⟩
  · intro h1
    simp [collectStatusFromReader, h1]
  · intro h2
    have hf1 : listStarts "TITLE,".data (content.data.take 18) = false :=
      listStarts_false_of _ _ _ h2 (by decide) (by decide)
    simp [collectStatusFromReader, hf1, h2]
  · intro h3
    have hf1 : listStarts "TITLE,".data (content.data.take 18) = false :=
      listStarts_false_of _ _ _ h3 (by decide) (by decide)
    have hf2 : listStarts "TITLE\t".data (content.data.take 18) = false :=
      listStarts_false_of _ _ _ h3 (by decide) (by decide)
    simp [collectStatusFromReader, hf1, hf2, h3]
  · intro h4
    have hf1 : listStarts "TITLE,".data (content.data.take 18) = false :=
      listStarts_false_of _ _ _ h4 (by decide) (by decide)
    have hf2 : listStarts "TITLE\t".data (content.data.take 18) = false :=
      listStarts_false_of _ _ _ h4 (by decide) (by decide)
    have hf3 : listStarts "OpenVPN STATISTICS".data (content.data.take 18) = false :=
      listStarts_false_of _ _ _ h4 (by decide) (by decide)
    simp [collectStatusFromReader, hf1, hf2, hf3, h4]
  · intro hf1 hf2 hf3 hf4
    simp [collectStatusFromReader, hf1, hf2, hf3, hf4]

/-- Claim C5: in a v2/v3 document, a data line whose first field is a
registered section identifier (`CLIENT_LIST` or `ROUTING_TABLE`)
appearing before any HEADER line for that identifier makes the scan
fail with the missing-header error naming that section. -/
theorem claimC5_missing_header (ii : Bool) (sp : String) (sep : Char)
    (pre post : List String) (line : String) (st2 : ServerScanState)
    (ms : List Measurement)
    (hrun : serverRun (openvpnServerHeaders ii) sp sep initServerScanState pre
      = .ok (st2, ms))
    (hf0 : (splitOnStr sep line).headD "" = "CLIENT_LIST"
        ∨ (splitOnStr sep line).headD "" = "ROUTING_TABLE")
    (hnohdr : ∀ l ∈ pre, ¬ ((splitOnStr sep l).headD "" = "HEADER"
        ∧ (splitOnStr sep l).getD 1 "" = (splitOnStr sep line).headD "")) :
    collectServerStatusFromReader (openvpnServerHeaders ii) sp sep (pre ++ line :: post)
      = (ms, some (.missingHeader ((splitOnStr sep line).headD ""))) := by
  have hnone : alookup ((splitOnStr sep line).headD "") st2.headersFound = none :=
    serverRun_headers_none _ sp sep pre initServerScanState st2 ms _ hrun rfl hnohdr
  have hstep := collectServerLine_missingHeader ii sp sep st2 line hf0 hnone
  unfold collectServerStatusFromReader
  rw [serverRun_append _ sp sep pre (line :: post) _ st2 ms hrun]
  simp only [collectServerStatusGo, hstep]
  simp

/-- Witness for C5: the two-line v2 document whose `CLIENT_LIST` row
precedes any HEADER fails with `MissingHeader("CLIENT_LIST")`. -/
theorem claimC5_missing_header_witness :
    collectServerStatusFromReader (openvpnServerHeaders true) "/status" ','
        ["TITLE,OpenVPN", "CLIENT_LIST,alice"]
      = ([], some (.missingHeader "CLIENT_LIST")) :=
  claimC5_missing_header true "/status" ',' ["TITLE,OpenVPN"] [] "CLIENT_LIST,alice"
    initServerScanState [] (by rfl) (Or.inl (by rfl)) (by decide)

/-- Claim C6: in the v4 parser a data row of the CLIENT_LIST (or
ROUTING_TABLE) section seen while no header has been captured for that
section yields no measurements and no error — the step succeeds and
the scan continues (only the connected-client counter moves, in the
CLIENT_LIST case) — and such a document can still scan to success, in
contrast with the strict v2/v3 failure. -/
theorem claimC6_v4_headerless_row_is_lenient :
    (∀ ii sp (st : V4ScanState) line,
      st.currentSection = "CLIENT_LIST" → line ≠ "" →
      line ≠ "OpenVPN CLIENT LIST" → line ≠ "ROUTING TABLE" →
      line ≠ "GLOBAL STATS" → line ≠ "END" →
      strStarts "Updated," line = false → strStarts "Common Name," line = false →
      alookup "CLIENT_LIST" st.headersFound = none →
      collectServerLineV4 (openvpnServerHeaders ii) sp st line
        = .ok ({ st with numberConnectedClient := st.numberConnectedClient + 1 }, [], false))
    ∧ (∀ ii sp (st : V4ScanState) line,
      st.currentSection = "ROUTING_TABLE" → line ≠ "" →
      line ≠ "OpenVPN CLIENT LIST" → line ≠ "ROUTING TABLE" →
      line ≠ "GLOBAL STATS" → line ≠ "END" →
      strStarts "Virtual Address," line = false →
      alookup "ROUTING_TABLE" st.headersFound = none →
      collectServerLineV4 (openvpnServerHeaders ii) sp st line = .ok (st, [], false))
    ∧ collectServerStatusFromReaderV4 (openvpnServerHeaders true) "/status"
        ["OpenVPN CLIENT LIST", "client1,1.2.3.4:5,100,200", "END"]
      = ([connectedClientsMetric "/status" 1], none) :=
  ⟨fun ii sp st line h1 h2 h3 h4 h5 h6 h7 h8 h9 =>
      collectServerLineV4_client_no_header ii sp st line h1 h2 h3 h4 h5 h6 h7 h8 h9,
   fun ii sp st line h1 h2 h3 h4 h5 h6 h7 h8 =>
      collectServerLineV4_routing_no_header ii sp st line h1 h2 h3 h4 h5 h6 h7 h8,
   by decide⟩

/-- Claim C7: a client document whose lines around them scan cleanly
and which contains `Updated,Sun Oct 20 09:23:08 2024` followed by
`TCP/UDP read bytes,1234` emits the status-update-time gauge with the
epoch value of that date-time interpreted in the process's local
timezone (`1729416188` minus the zone offset) and the
`client_tcp_udp_read_bytes_total` counter with value 1234. -/
theorem claimC7_client_updated_and_counter (sp : String) (off : Int)
    (pre mid post : List String) (ms1 ms2 : List Measurement)
    (h1 : clientRun openvpnClientDescs sp off pre = .ok ms1)
    (h2 : clientRun openvpnClientDescs sp off mid = .ok ms2) :
    statusUpdateTimeMetric sp (((1729416188 : Int) - off : Int) : Rat)
        ∈ (collectClientStatusFromReader openvpnClientDescs sp off
            (pre ++ "Updated,Sun Oct 20 09:23:08 2024"
              :: (mid ++ "TCP/UDP read bytes,1234" :: post))).1
    ∧ { name := "openvpn_client_tcp_udp_read_bytes_total", valueType := .counter,
        value := (1234 : Rat), labels := [sp] }
        ∈ (collectClientStatusFromReader openvpnClientDescs sp off
            (pre ++ "Updated,Sun Oct 20 09:23:08 2024"
              :: (mid ++ "TCP/UDP read bytes,1234" :: post))).1 := by
  have hu : collectClientLine openvpnClientDescs sp off "Updated,Sun Oct 20 09:23:08 2024"
      = .ok [statusUpdateTimeMetric sp (((1729416188 : Int) - off : Int) : Rat)] := rfl
  have ht : collectClientLine openvpnClientDescs sp off "TCP/UDP read bytes,1234"
      = .ok [{ name := "openvpn_client_tcp_udp_read_bytes_total", valueType := .counter,
               value := (1234 : Rat), labels := [sp] }] := rfl
  unfold collectClientStatusFromReader
  rw [clientRun_append _ sp off pre _ ms1 h1]
  simp only [collectClientStatusGo, hu]
  rw [clientRun_append _ sp off mid _ ms2 h2]
  simp only [collectClientStatusGo, ht]
  constructor <;> simp

/-- Witness for C7: the canonical four-line client fixture at zone
offset 7200 yields both measurements. -/
theorem claimC7_client_updated_and_counter_witness :
    statusUpdateTimeMetric "/client" (((1729416188 : Int) - 7200 : Int) : Rat)
        ∈ (collectClientStatusFromReader openvpnClientDescs "/client" 7200
            ["OpenVPN STATISTICS", "Updated,Sun Oct 20 09:23:08 2024",
             "TCP/UDP read bytes,1234", "END"]).1
    ∧ { name := "openvpn_client_tcp_udp_read_bytes_total", valueType := .counter,
        value := (1234 : Rat), labels := ["/client"] }
        ∈ (collectClientStatusFromReader openvpnClientDescs "/client" 7200
            ["OpenVPN STATISTICS", "Updated,Sun Oct 20 09:23:08 2024",
             "TCP/UDP read bytes,1234", "END"]).1 :=
  claimC7_client_updated_and_counter "/client" 7200 ["OpenVPN STATISTICS"] [] ["END"]
    [] [] (by rfl) (by rfl)

lemma labels_shape_of_cases (ii : Bool) (sp : String) (m : Measurement)
    (hdisj : (∃ v, m = statusUpdateTimeMetric sp v)
      ∨ (∃ n, m = connectedClientsMetric sp n)
      ∨ ∃ hdr f sect, alookup sect (openvpnServerHeaders ii) = some hdr
          ∧ f ∈ hdr.metrics ∧ m.name = f.metricName ∧ m.valueType = f.valueType
          ∧ m.labels.length = hdr.labelColumns.length + 1 ∧ m.labels.headD "" = sp) :
    ((m.name = "openvpn_server_client_received_bytes_total"
        ∨ m.name = "openvpn_server_client_sent_bytes_total") →
      m.labels.length = 1 + (clientLabelColumns ii).length ∧ m.labels.headD "" = sp)
    ∧ (m.name = "openvpn_server_route_last_reference_time_seconds" →
      m.labels.length = 1 + (routingLabelColumns ii).length ∧ m.labels.headD "" = sp) := by
  rcases hdisj with ⟨v, rfl⟩ | ⟨n, rfl⟩ | ⟨hdr, f, sect, hl, hf, hname, -, hlen, hhead⟩
  · constructor
    · rintro (hn | hn) <;> simp [statusUpdateTimeMetric] at hn
    · intro hn
      simp [statusUpdateTimeMetric] at hn
  · constructor
    · rintro (hn | hn) <;> simp [connectedClientsMetric] at hn
    · intro hn
      simp [connectedClientsMetric] at hn
  · rcases reg_field_cases ii _ _ _ hl hf with ⟨hcols, hfr | hfr⟩ | ⟨hcols, hfr⟩
    · refine ⟨fun _ => ⟨by rw [hlen, hcols]; omega, hhead⟩, fun hn => ?_⟩
      rw [hname, hfr] at hn
      simp [recvField] at hn
    · refine ⟨fun _ => ⟨by rw [hlen, hcols]; omega, hhead⟩, fun hn => ?_⟩
      rw [hname, hfr] at hn
      simp [sentField] at hn
    · refine ⟨fun hn => ?_, fun _ => ⟨by rw [hlen, hcols]; omega, hhead⟩⟩
      rw [hname, hfr] at hn
      rcases hn with hn | hn <;> simp [routeField] at hn

/-- Claim C8: every per-row server measurement (in both the v2/v3 and
the v4 collector) carries a label tuple of length exactly
`1 + len(LabelColumns)` of its section, with the status path as the
first label. -/
theorem claimC8_label_tuple_shape (ii : Bool) (sp : String) (m : Measurement) :
    (∀ sep lines,
      m ∈ (collectServerStatusFromReader (openvpnServerHeaders ii) sp sep lines).1 →
      ((m.name = "openvpn_server_client_received_bytes_total"
          ∨ m.name = "openvpn_server_client_sent_bytes_total") →
        m.labels.length = 1 + (clientLabelColumns ii).length ∧ m.labels.headD "" = sp)
      ∧ (m.name = "openvpn_server_route_last_reference_time_seconds" →
        m.labels.length = 1 + (routingLabelColumns ii).length ∧ m.labels.headD "" = sp))
    ∧ (∀ lines,
      m ∈ (collectServerStatusFromReaderV4 (openvpnServerHeaders ii) sp lines).1 →
      ((m.name = "openvpn_server_client_received_bytes_total"
          ∨ m.name = "openvpn_server_client_sent_bytes_total") →
        m.labels.length = 1 + (clientLabelColumns ii).length ∧ m.labels.headD "" = sp)
      ∧ (m.name = "openvpn_server_route_last_reference_time_seconds" →
        m.labels.length = 1 + (routingLabelColumns ii).length ∧ m.labels.headD "" = sp)) :=
  ⟨fun sep lines hm => labels_shape_of_cases ii sp m
      (serverScan_mem ii sp sep initServerScanState lines m hm),
   fun lines hm => labels_shape_of_cases ii sp m
      (v4Scan_mem ii sp initV4ScanState lines m hm)⟩

/-- Claim C9: in the v4 parser every CLIENT_LIST-section line that is
neither the `Updated,` timestamp line nor the `Common Name,` header
line increments the connected-client counter when the step succeeds —
including rows seen while no header is stored, which produce no
measurements — so the final gauge also counts rows that produced no
per-client metrics (two headerless rows yield gauge value 2 and
nothing else). -/
theorem claimC9_v4_counts_all_data_rows :
    (∀ ii sp (st st2 : V4ScanState) line ms brk,
      st.currentSection = "CLIENT_LIST" → line ≠ "" →
      line ≠ "OpenVPN CLIENT LIST" → line ≠ "ROUTING TABLE" →
      line ≠ "GLOBAL STATS" → line ≠ "END" →
      strStarts "Updated," line = false → strStarts "Common Name," line = false →
      collectServerLineV4 (openvpnServerHeaders ii) sp st line = .ok (st2, ms, brk) →
      st2.numberConnectedClient = st.numberConnectedClient + 1)
    ∧ (∀ ii sp (st : V4ScanState) line,
      st.currentSection = "CLIENT_LIST" → line ≠ "" →
      line ≠ "OpenVPN CLIENT LIST" → line ≠ "ROUTING TABLE" →
      line ≠ "GLOBAL STATS" → line ≠ "END" →
      strStarts "Updated," line = false → strStarts "Common Name," line = false →
      alookup "CLIENT_LIST" st.headersFound = none →
      collectServerLineV4 (openvpnServerHeaders ii) sp st line
        = .ok ({ st with numberConnectedClient := st.numberConnectedClient + 1 }, [], false))
    ∧ collectServerStatusFromReaderV4 (openvpnServerHeaders true) "/status"
        ["OpenVPN CLIENT LIST", "client1,1.2.3.4:5,100,200",
         "client2,2.3.4.5:6,300,400", "END"]
      = ([connectedClientsMetric "/status" 2], none) := by
  refine ⟨?_, ?_, by decide⟩
  · intro ii sp st st2 line ms brk hsec hne hl1 hl2 hl3 hl4 hup hcn hstep
    have hemp : line.data.isEmpty = false := by
      cases hb : line.data.isEmpty
      · rfl
      · exact absurd ((string_eq_empty_iff line).mpr (List.isEmpty_iff.mp hb)) hne
    have hrow : v4ClientDataRow st.currentSection line = true := by
      simp [v4ClientDataRow, hsec, hl1, hl2, hl3, hl4, hemp, hup, hcn]
    rw [(collectServerLineV4_ok_cases ii sp st st2 line ms brk hstep).1, hrow]
    simp
  · intro ii sp st line h1 h2 h3 h4 h5 h6 h7 h8 h9
    exact collectServerLineV4_client_no_header ii sp st line h1 h2 h3 h4 h5 h6 h7 h8 h9

/-- Claim C10: in the v2/v3 parser an empty line is split to the
single empty field, which matches no record type and no registered
section, so the step fails with the unsupported-record-type error for
the empty tag; any v2/v3 scan of a document containing an empty line
therefore errors, and when the scan reaches the empty line it fails
with exactly that error.  The v4 parser instead skips empty lines
(identity step), so deleting an empty line never changes a v4 scan;
concretely, adding a blank line to a succeeding v2 document flips it
to an error while a blank line inside a v4 document leaves it
succeeding. -/
theorem claimC10_empty_line_v2_fails_v4_skips :
    (∀ ii sp sep (st : ServerScanState),
      collectServerLine (openvpnServerHeaders ii) sp sep st ""
        = .error (.unsupportedKey ""))
    ∧ (∀ ii sp sep (st : ServerScanState) pre post,
      ((collectServerStatusGo (openvpnServerHeaders ii) sp sep st
          (pre ++ "" :: post)).2).isSome = true)
    ∧ (∀ ii sp sep pre post st2 ms,
      serverRun (openvpnServerHeaders ii) sp sep initServerScanState pre = .ok (st2, ms) →
      collectServerStatusFromReader (openvpnServerHeaders ii) sp sep (pre ++ "" :: post)
        = (ms, some (.unsupportedKey "")))
    ∧ (∀ reg sp (st : V4ScanState),
      collectServerLineV4 reg sp st "" = .ok (st, [], false))
    ∧ (∀ reg sp (st : V4ScanState) pre post,
      collectServerStatusV4Go reg sp st (pre ++ "" :: post)
        = collectServerStatusV4Go reg sp st (pre ++ post))
    ∧ ((collectServerStatusFromReader (openvpnServerHeaders true) "/status" ','
          ["TITLE,OpenVPN"]).2 = none
      ∧ collectServerStatusFromReader (openvpnServerHeaders true) "/status" ','
          ["TITLE,OpenVPN", ""]
        = ([], some (.unsupportedKey ""))
      ∧ collectServerStatusFromReaderV4 (openvpnServerHeaders true) "/status"
          ["OpenVPN CLIENT LIST", "", "END"]
        = ([connectedClientsMetric "/status" 0], none)) := by
  refine ⟨collectServerLine_empty, serverScan_empty_line_fails, ?_,
    collectServerLineV4_empty, v4Scan_skip_empty, by decide, by decide, by decide⟩
  intro ii sp sep pre post st2 ms hrun
  unfold collectServerStatusFromReader
  rw [serverRun_append _ sp sep pre ("" :: post) _ st2 ms hrun]
  simp only [collectServerStatusGo, collectServerLine_empty]
  simp
